import Mathlib

/-!
Verification of the URL-Categoriser-SEO crawler (src/URLCat.py and
src/URLCat_GSC.py) against its natural-language specification.

The two Python files are embedded shallowly: pure string manipulation is
modelled over Lean `String`/`List Char`; the network fetch and the HTML
parse (requests + BeautifulSoup) are an oracle parameter producing the
parsed components of a page; the NLTK/TextBlob word tokenizer is an oracle
parameter producing the token list of a text.  Everything the repository
computes itself (URL parsing via urllib, content extraction, the keyword
classifier, URL hierarchy analysis, keyword ranking, the crawl loop and
the taxonomy aggregation) is translated function by function.
-/

set_option maxRecDepth 40000

deriving instance DecidableEq for Except

/-! ## Python string primitives (ASCII fragment of CPython str methods) -/

/-- Python str.split() whitespace set (ASCII fragment of Unicode whitespace). -/
def pyIsSpace (c : Char) : Bool :=
  c = ' ' || c = '\t' || c = '\n' || c = '\r' || c = '\x0b' || c = '\x0c'

/-- Groups of non-space characters, including empty groups at each space.
Helper for the model of Python str.split() with no separator. -/
def splitWsGroups : List Char → List (List Char)
  | [] => [[]]
  | c :: t =>
    let g := splitWsGroups t
    if pyIsSpace c then [] :: g
    else
      match g with
      | [] => [[c]]
      | w :: ws => (c :: w) :: ws

/-- Model of Python s.split() (no argument): maximal runs of non-whitespace. -/
def pySplit (s : String) : List String :=
  ((splitWsGroups s.data).filter (fun w => w ≠ [])).map (fun w => ⟨w⟩)

/-- Model of Python sep.join(xs). -/
def pyJoin (sep : String) (xs : List String) : String :=
  ⟨(List.intersperse sep.data (xs.map String.data)).flatten⟩

/-- The whitespace normalisation idiom ' '.join(s.split()) used by both sources. -/
def pyCollapse (s : String) : String :=
  pyJoin " " (pySplit s)

/-- Model of Python s[:n] (slicing counts code points, as Lean chars do). -/
def pyTake (n : Nat) (s : String) : String :=
  ⟨s.data.take n⟩

/-- Model of Python s.lower() on ASCII text. -/
def pyLower (s : String) : String :=
  ⟨s.data.map Char.toLower⟩

/-- Model of Python s.strip() with no argument (ASCII whitespace fragment). -/
def pyStripWs (s : String) : String :=
  ⟨(((s.data.dropWhile pyIsSpace).reverse).dropWhile pyIsSpace).reverse⟩

/-- Model of Python s.rstrip('/') as used on the GSC base URL. -/
def pyRstripSlash (s : String) : String :=
  ⟨(s.data.reverse.dropWhile (fun c => c = '/')).reverse⟩

/-- Does pat occur as a contiguous sublist of the remaining text? -/
def listInfix (pat : List Char) : List Char → Bool
  | [] => pat.isEmpty
  | c :: t => pat.isPrefixOf (c :: t) || listInfix pat t

/-- Model of the Python substring test `pat in hay`. -/
def pyContains (hay pat : String) : Bool :=
  listInfix pat.data hay.data

/-- Model of Python s.endswith(suf). -/
def pyEndswith (s suf : String) : Bool :=
  List.isSuffixOf suf.data s.data

/-- Groups between occurrences of a separator character. Helper for the
model of Python s.split(sep). -/
def splitCharGroups (sep : Char) : List Char → List (List Char)
  | [] => [[]]
  | c :: t =>
    let g := splitCharGroups sep t
    if c = sep then [] :: g
    else
      match g with
      | [] => [[c]]
      | w :: ws => (c :: w) :: ws

/-- Model of Python s.split(sep) for a one-character separator. -/
def pySplitChar (sep : Char) (s : String) : List String :=
  (splitCharGroups sep s.data).map (fun w => ⟨w⟩)

/-- Split a character list at the first occurrence of sep: the part before,
and the part after when sep occurs. -/
def breakAtChar (sep : Char) : List Char → List Char × Option (List Char)
  | [] => ([], none)
  | c :: t =>
    if c = sep then ([], some t)
    else
      let r := breakAtChar sep t
      (c :: r.1, r.2)

/-! ## Model of urllib.parse (urlsplit / urlparse / urljoin / urlunparse)

Modelled from CPython's pure-string implementation on ASCII input.  The
only raising path kept is the mismatched-bracket check of urlsplit
("Invalid IPv6 URL"); validation of the contents of a well-bracketed IPv6
host and the non-ASCII netloc NFKC check are outside the modelled (ASCII,
bracket-free) fragment. -/

structure PySplitResult where
  scheme : String
  netloc : String
  path : String
  query : String
  fragment : String
deriving DecidableEq, Repr

structure PyParseResult where
  scheme : String
  netloc : String
  path : String
  params : String
  query : String
  fragment : String
deriving DecidableEq, Repr

/-- Characters allowed in a URL scheme after the first letter. -/
def schemeChar (c : Char) : Bool :=
  c.isAlpha || c.isDigit || c = '+' || c = '-' || c = '.'

/-- CPython urlsplit preprocessing: strip leading/trailing C0-control-or-space,
then remove tab, carriage return and newline anywhere. -/
def cleanUrl (l : List Char) : List Char :=
  (((l.dropWhile (fun c => decide (c ≤ ' '))).reverse.dropWhile
      (fun c => decide (c ≤ ' '))).reverse).filter
    (fun c => !(c = '\t' || c = '\r' || c = '\n'))

/-- Detect a leading scheme "name:" with a valid scheme name; returns the
scheme characters and the remainder after the colon. -/
def takeScheme (l : List Char) : Option (List Char × List Char) :=
  match breakAtChar ':' l with
  | (before, some after) =>
    match before with
    | [] => none
    | c :: cs => if c.isAlpha && cs.all schemeChar then some (c :: cs, after) else none
  | (_, none) => none

/-- Model of urllib.parse.urlsplit(url, scheme=defaultScheme). -/
def pyUrlsplit (url : String) (defaultScheme : String) : Except String PySplitResult :=
  let l := cleanUrl url.data
  let sr :=
    match takeScheme l with
    | some p => (String.mk (p.1.map Char.toLower), p.2)
    | none => (defaultScheme, l)
  let scheme := sr.1
  let rest := sr.2
  let nr :=
    match rest with
    | '/' :: '/' :: r =>
      (r.takeWhile (fun c => !(c = '/' || c = '?' || c = '#')),
       r.dropWhile (fun c => !(c = '/' || c = '?' || c = '#')))
    | _ => ([], rest)
  let netloc := nr.1
  let rest2 := nr.2
  if (netloc.contains '[' ) ≠ (netloc.contains ']') then
    .error "Invalid IPv6 URL"
  else
    let fr := breakAtChar '#' rest2
    let fragment := fr.2.getD []
    let qr := breakAtChar '?' fr.1
    let query := qr.2.getD []
    .ok { scheme := scheme, netloc := ⟨netloc⟩, path := ⟨qr.1⟩,
          query := ⟨query⟩, fragment := ⟨fragment⟩ }

/-- Model of urllib.parse._splitparams: split ";params" off the last path
segment (only called when the path contains a semicolon). -/
def splitParamsList (path : List Char) : List Char × List Char :=
  if path.contains '/' then
    let revp := path.reverse
    let seg := (revp.takeWhile (fun c => !(c = '/'))).reverse
    let pre := (revp.dropWhile (fun c => !(c = '/'))).reverse
    match breakAtChar ';' seg with
    | (a, some b) => (pre ++ a, b)
    | (_, none) => (path, [])
  else
    match breakAtChar ';' path with
    | (a, some b) => (a, b)
    | (_, none) => (path, [])

/-- Model of urllib.parse.urlparse(url, scheme=defaultScheme). -/
def pyUrlparse (url : String) (defaultScheme : String) : Except String PyParseResult :=
  match pyUrlsplit url defaultScheme with
  | .error e => .error e
  | .ok r =>
    let pp :=
      if r.path.data.contains ';' then splitParamsList r.path.data
      else (r.path.data, [])
    .ok { scheme := r.scheme, netloc := r.netloc, path := ⟨pp.1⟩,
          params := ⟨pp.2⟩, query := r.query, fragment := r.fragment }

/-- Model of urllib.parse.urlunsplit. -/
def pyUrlunsplit (scheme netloc path query fragment : String) : String :=
  let url := path.data
  let url :=
    if netloc.data ≠ [] ∨ (url ≠ [] ∧ url.take 2 = ['/', '/']) then
      let u := if url ≠ [] ∧ url.take 1 ≠ ['/'] then '/' :: url else url
      '/' :: '/' :: (netloc.data ++ u)
    else url
  let url := if scheme.data ≠ [] then scheme.data ++ ':' :: url else url
  let url := if query.data ≠ [] then url ++ '?' :: query.data else url
  let url := if fragment.data ≠ [] then url ++ '#' :: fragment.data else url
  ⟨url⟩

/-- Model of urllib.parse.urlunparse. -/
def pyUrlunparse (scheme netloc path params query fragment : String) : String :=
  pyUrlunsplit scheme netloc
    (if params ≠ "" then path ++ ";" ++ params else path) query fragment

/-- urllib.parse.uses_relative. -/
def usesRelative : List String :=
  ["", "ftp", "http", "gopher", "nntp", "imap", "wais", "file", "https",
   "shttp", "mms", "prospero", "rtsp", "rtspu", "sftp", "svn", "svn+ssh",
   "ws", "wss"]

/-- urllib.parse.uses_netloc. -/
def usesNetloc : List String :=
  ["", "ftp", "http", "gopher", "nntp", "telnet", "imap", "wais", "file",
   "mms", "https", "shttp", "snews", "prospero", "rtsp", "rtspu", "rsync",
   "svn", "svn+ssh", "sftp", "nfs", "git", "git+ssh", "ws", "wss",
   "itms-services"]

/-- The slice assignment segments[1:-1] = filter(None, segments[1:-1]):
drop empty strings except in last position (first handled by the caller). -/
def filterMiddle : List String → List String
  | [] => []
  | [x] => [x]
  | x :: y :: xs => if x = "" then filterMiddle (y :: xs) else x :: filterMiddle (y :: xs)

/-- The dot-segment resolution loop of urljoin. -/
def resolveSegs (segs : List String) : List String :=
  segs.foldl
    (fun acc seg =>
      if seg = ".." then acc.dropLast
      else if seg = "." then acc
      else acc ++ [seg]) []

/-- Model of urllib.parse.urljoin(base, url). -/
def pyUrljoin (base url : String) : Except String String :=
  if base = "" then .ok url
  else if url = "" then .ok base
  else
    match pyUrlparse base "" with
    | .error e => .error e
    | .ok b =>
      match pyUrlparse url b.scheme with
      | .error e => .error e
      | .ok u =>
        if u.scheme ≠ b.scheme ∨ u.scheme ∉ usesRelative then .ok url
        else if u.scheme ∈ usesNetloc ∧ u.netloc ≠ "" then
          .ok (pyUrlunparse u.scheme u.netloc u.path u.params u.query u.fragment)
        else
          let netloc := if u.scheme ∈ usesNetloc then b.netloc else u.netloc
          if u.path = "" ∧ u.params = "" then
            let query := if u.query = "" then b.query else u.query
            .ok (pyUrlunparse u.scheme netloc b.path b.params query u.fragment)
          else
            let baseParts0 := pySplitChar '/' b.path
            let baseParts :=
              if baseParts0.getLast? ≠ some "" then baseParts0.dropLast else baseParts0
            let segments :=
              if u.path.data.take 1 = ['/'] then pySplitChar '/' u.path
              else
                match baseParts ++ pySplitChar '/' u.path with
                | [] => []
                | x :: xs => x :: filterMiddle xs
            let resolved := resolveSegs segments
            let resolved :=
              if segments.getLast? = some "." ∨ segments.getLast? = some ".." then
                resolved ++ [""]
              else resolved
            let joined := pyJoin "/" resolved
            let path := if joined = "" then "/" else joined
            .ok (pyUrlunparse u.scheme netloc path u.params u.query u.fragment)

/-! ## Model of collections.Counter and its most_common -/

/-- First-occurrence deduplication (the key order of a Python dict/Counter
built by insertion, and of dict.fromkeys). -/
def dedupFirstAux [DecidableEq α] : List α → List α → List α
  | _, [] => []
  | seen, x :: t =>
    if x ∈ seen then dedupFirstAux seen t else x :: dedupFirstAux (x :: seen) t

/-- Keys in first-encounter order. -/
def dedupFirst [DecidableEq α] (l : List α) : List α :=
  dedupFirstAux [] l

/-- Model of collections.Counter(l): keys in first-encounter order, each
paired with its multiplicity in l. -/
def counterList [DecidableEq α] (l : List α) : List (α × Nat) :=
  (dedupFirst l).map (fun w => (w, l.count w))

/-- Insert into a descending-by-count list, after every entry with a
strictly greater count (stable descending insertion). -/
def insertDescend (p : α × Nat) : List (α × Nat) → List (α × Nat)
  | [] => [p]
  | q :: t => if p.2 < q.2 then q :: insertDescend p t else p :: q :: t

/-- Stable sort by descending count. -/
def sortDescend : List (α × Nat) → List (α × Nat)
  | [] => []
  | p :: t => insertDescend p (sortDescend t)

/-- Model of Counter.most_common(n): heapq.nlargest is specified as the
stable descending sort by count followed by taking the first n. -/
def most_common (n : Nat) (l : List (α × Nat)) : List (α × Nat) :=
  (sortDescend l).take n

/-- Model of Python max(d, key=d.get) over the items of an (ordered) dict:
the first key whose value no later value strictly exceeds. -/
def pyMaxSnd : List (α × Nat) → α × Nat → α × Nat
  | [], best => best
  | p :: t, best => pyMaxSnd t (if best.2 < p.2 then p else best)

/-- Model of Python max(d.values()) (with 0 for the impossible empty case). -/
def maxSnd : List (α × Nat) → Nat
  | [] => 0
  | p :: t => max p.2 (maxSnd t)

/-! ## Explicit monadic list helpers (Except and Option)

Used instead of the library mapM/foldlM so that the same functions appear
in definitions and in theorem statements. -/

def exMapM (f : α → Except ε β) : List α → Except ε (List β)
  | [] => .ok []
  | x :: t =>
    match f x with
    | .error e => .error e
    | .ok y =>
      match exMapM f t with
      | .error e => .error e
      | .ok ys => .ok (y :: ys)

def exFoldlM (f : β → α → Except ε β) : β → List α → Except ε β
  | b, [] => .ok b
  | b, a :: t =>
    match f b a with
    | .error e => .error e
    | .ok b2 => exFoldlM f b2 t

def opMapM (f : α → Option β) : List α → Option (List β)
  | [] => some []
  | x :: t =>
    match f x with
    | none => none
    | some y =>
      match opMapM f t with
      | none => none
      | some ys => some (y :: ys)

/-! ## Shared page data model

`Page` is the dict returned by extract_page_content; `PageParts` is the
parsed-HTML view that the network+BeautifulSoup oracle supplies for a
fetch that raised no exception. -/

structure Page where
  url : String
  title : String
  description : String
  headings : List String
  text_content : String
  word_count : Nat
  links : List String
  status : String
deriving DecidableEq, Repr

structure PageParts where
  title : Option String
  meta_description : Option String
  headings : List String
  rawText : String
  hrefs : List String
deriving DecidableEq, Repr

/-- The error dict built by the except branch of extract_page_content
(both sources): title "Error", empty content fields, status "error: ...". -/
def errorPage (url msg : String) : Page :=
  { url := url, title := "Error", description := "", headings := [],
    text_content := "", word_count := 0, links := [], status := "error: " ++ msg }

/-! ## Shared keyword extraction (crawl_website lines 175-185 of URLCat.py,
crawl lines 133-135 of URLCat_GSC.py; identical token filter) -/

/-- len(word) > 3 and word.isalpha(). -/
def qualifies (w : String) : Bool :=
  decide (3 < w.length) && w.data.all Char.isAlpha

/-- [word.lower() for word in tokens if len(word) > 3 and word.isalpha()]. -/
def keywordCandidates (tokens : List String) : List String :=
  (tokens.filter qualifies).map pyLower

/-- Counter(words).most_common(5) over the qualifying lowered tokens. -/
def topKeywords (tokens : List String) : List (String × Nat) :=
  most_common 5 (counterList (keywordCandidates tokens))

namespace URLCat

/-! ### WebsiteAnalyzer of src/URLCat.py -/

/-- is_valid_url (URLCat.py lines 44-52): domain test only, no scheme
test; any urlparse exception yields False. -/
def is_valid_url (url domain : String) : Bool :=
  match pyUrlparse url "" with
  | .error _ => false
  | .ok p =>
    p.netloc == domain || p.netloc == "" || pyEndswith p.netloc ("." ++ domain)

/-- The link loop of extract_page_content (lines 88-92): resolve each href
against the page URL, keep it when in scope and not already collected. -/
def collectLinks (domain url : String) (hrefs : List String) : Except String (List String) :=
  exFoldlM
    (fun acc h =>
      match pyUrljoin url h with
      | .error e => .error e
      | .ok href =>
        .ok (if is_valid_url href domain && !(acc.contains href) then acc ++ [href] else acc))
    [] hrefs

/-- The success path of extract_page_content (lines 56-103). -/
def extract_success (domain url : String) (parts : PageParts) : Except String Page :=
  let title_text :=
    match parts.title with
    | some t => pyStripWs t
    | none => "No Title"
  let description := (parts.meta_description).getD ""
  let headings := (parts.headings.map pyStripWs).filter (fun h => h ≠ "")
  let text_content := pyCollapse parts.rawText
  match collectLinks domain url parts.hrefs with
  | .error e => .error e
  | .ok links =>
    .ok { url := url, title := title_text, description := description,
          headings := headings,
          text_content := pyTake 1000 text_content,
          word_count := (pySplit text_content).length,
          links := links, status := "success" }

/-- extract_page_content including its try/except: the oracle models
requests.get plus BeautifulSoup; any exception (from the fetch or from the
extraction itself) becomes the error record. -/
def fetch_page (domain : String) (oracle : String → Except String PageParts)
    (url : String) : Page :=
  match oracle url with
  | .error e => errorPage url e
  | .ok parts =>
    match extract_success domain url parts with
    | .error e => errorPage url e
    | .ok page => page

/-- The fixed category keyword table of classify_content (lines 122-130). -/
def categories : List (String × List String) :=
  [("product", ["product", "buy", "shop", "store", "price", "cart", "purchase", "item", "catalog"]),
   ("blog", ["blog", "post", "article", "news", "story", "read", "author", "published"]),
   ("about", ["about", "company", "team", "history", "mission", "vision", "who we are"]),
   ("contact", ["contact", "phone", "email", "address", "location", "reach us", "get in touch"]),
   ("service", ["service", "solution", "consulting", "support", "what we do", "offerings"]),
   ("help", ["help", "faq", "support", "documentation", "guide", "tutorial", "how to"]),
   ("legal", ["privacy", "terms", "legal", "policy", "agreement", "disclaimer", "cookies"])]

/-- The lower-cased concatenation classify_content scores against
(title + ' ' + description + ' ' + ' '.join(headings) + ' ' + text_content). -/
def classifyText (page : Page) : String :=
  pyLower (page.title ++ " " ++ page.description ++ " " ++
           pyJoin " " page.headings ++ " " ++ page.text_content)

/-- scores[category] = sum(1 for keyword in keywords if keyword in text). -/
def scoreTable (tbl : List (String × List String)) (text : String) : List (String × Nat) :=
  tbl.map (fun ck => (ck.1, ck.2.countP (fun k => pyContains text k)))

/-- max(scores, key=scores.get) over the insertion-ordered score dict. -/
def pickMax : List (String × Nat) → String
  | [] => "other"
  | p :: t => (pyMaxSnd t p).1

/-- classify_content (lines 117-136). -/
def classify_content (page : Page) : String :=
  let scores := scoreTable categories (classifyText page)
  if maxSnd scores > 0 then pickMax scores else "other"

structure Hierarchy where
  depth : Nat
  path_parts : List String
  has_query : Bool
  file_extension : Option String
deriving DecidableEq, Repr

/-- analyze_url_hierarchy (lines 138-148); urlparse may raise, which the
source does not catch here. -/
def analyze_url_hierarchy (url : String) : Except String Hierarchy :=
  match pyUrlparse url "" with
  | .error e => .error e
  | .ok parsed =>
    let path_parts := (pySplitChar '/' parsed.path).filter (fun p => p ≠ "")
    .ok { depth := path_parts.length,
          path_parts := path_parts,
          has_query := parsed.query != "",
          file_extension :=
            match path_parts.getLast? with
            | some last =>
              if last.data.contains '.' then some ((pySplitChar '.' last).getLastD "")
              else none
            | none => none }

structure Record where
  page : Page
  category : Option String
  hierarchy : Option Hierarchy
  keywords : Option (List (String × Nat))
deriving DecidableEq, Repr

/-- The enrichment of a success record inside the crawl loop (lines
168-185): classification, hierarchy, keyword extraction.  The tokenizer
oracle models TextBlob(text).words; the try/except around it is modelled
by the oracle being total. -/
def enrich (tok : String → List String) (page : Page) (url : String) :
    Except String Record :=
  let category := classify_content page
  match analyze_url_hierarchy url with
  | .error e => .error e
  | .ok hier =>
    let keywords :=
      if page.text_content ≠ "" then topKeywords (tok page.text_content) else []
    .ok { page := page, category := some category, hierarchy := some hier,
          keywords := some keywords }

/-- The link-enqueue loop (lines 190-192): append each link not already
crawled and not already queued. -/
def pushLinks (crawled queue links : List String) : List String :=
  links.foldl (fun q l => if l ∉ crawled ∧ l ∉ q then q ++ [l] else q) queue

/-- The while loop of crawl_website (lines 152-196), returning the final
(site_data, crawled) pair. -/
def crawl_loop (oracle : String → Except String PageParts)
    (tok : String → List String) (domain : String) (maxPages : Nat) :
    List String → List String → List Record →
    Except String (List Record × List String)
  | [], crawled, site_data => .ok (site_data, crawled)
  | current :: rest, crawled, site_data =>
    if h : crawled.length < maxPages then
      if current ∈ crawled then
        crawl_loop oracle tok domain maxPages rest crawled site_data
      else
        let crawled1 := crawled ++ [current]
        let page := fetch_page domain oracle current
        if page.status = "success" then
          match enrich tok page current with
          | .error e => .error e
          | .ok record =>
            crawl_loop oracle tok domain maxPages
              (pushLinks crawled1 rest page.links) crawled1 (site_data ++ [record])
        else
          crawl_loop oracle tok domain maxPages rest crawled1 site_data
    else .ok (site_data, crawled)
termination_by toCrawl crawled _ => (maxPages - crawled.length, toCrawl.length)
decreasing_by
  all_goals simp_wf
  all_goals first
    | exact Prod.Lex.right _ (by omega)
    | exact Prod.Lex.left _ _ (by omega)

/-- crawl_website together with the domain computation of __init__
(self.domain = urlparse(base_url).netloc), returning the final loop state. -/
def crawl_state (oracle : String → Except String PageParts)
    (tok : String → List String) (base_url : String) (maxPages : Nat) :
    Except String (List Record × List String) :=
  match pyUrlparse base_url "" with
  | .error e => .error e
  | .ok p => crawl_loop oracle tok p.netloc maxPages [base_url] [] []

/-- crawl_website's return value: the accumulated site_data. -/
def crawl_website (oracle : String → Except String PageParts)
    (tok : String → List String) (base_url : String) (maxPages : Nat) :
    Except String (List Record) :=
  (crawl_state oracle tok base_url maxPages).map (fun s => s.1)

structure Taxonomy where
  categories : List (String × Nat)
  hierarchy_levels : List (Nat × Nat)
  file_types : List (String × Nat)
  topics : List (String × Nat)
deriving DecidableEq, Repr

/-- page['hierarchy']['file_extension'] or 'html' (Python `or`: None and
the empty string both fall back to the sentinel). -/
def pyOrHtml (o : Option String) : String :=
  match o with
  | some s => if s = "" then "html" else s
  | none => "html"

/-- create_taxonomy_data (lines 198-212).  Accessing a key a record lacks
raises KeyError in Python; the Option models that failure. -/
def create_taxonomy_data (site_data : List Record) : Option Taxonomy :=
  match opMapM Record.category site_data with
  | none => none
  | some cats =>
    match opMapM Record.hierarchy site_data with
    | none => none
    | some hiers =>
      match opMapM Record.keywords site_data with
      | none => none
      | some kws =>
        some { categories := counterList cats,
               hierarchy_levels := counterList (hiers.map Hierarchy.depth),
               file_types := counterList (hiers.map (fun h => pyOrHtml h.file_extension)),
               topics := most_common 10 (counterList ((kws.map (fun l => l.map Prod.fst)).flatten)) }

end URLCat

namespace GSC

/-! ### WebsiteAnalyzer of src/URLCat_GSC.py -/

/-- is_valid_url (URLCat_GSC.py lines 43-51): scheme must be http or
https, then the same domain test; any urlparse exception yields False. -/
def is_valid_url (url domain : String) : Bool :=
  match pyUrlparse url "" with
  | .error _ => false
  | .ok p =>
    (p.scheme == "http" || p.scheme == "https") &&
    (p.netloc == domain || pyEndswith p.netloc ("." ++ domain) || p.netloc == "")

/-- The link collection of extract_page_content (lines 68-73): resolve,
strip the fragment with .split('#')[0], filter through the scoper, then
dict.fromkeys deduplication. -/
def collectLinks (domain url : String) (hrefs : List String) : Except String (List String) :=
  match exMapM
      (fun a =>
        match pyUrljoin url a with
        | .error e => .error e
        | .ok href => .ok ((pySplitChar '#' href).headD ""))
      hrefs with
  | .error e => .error e
  | .ok links0 => .ok (dedupFirst (links0.filter (fun h => is_valid_url h domain)))

/-- The success path of extract_page_content (lines 57-83); the stored
text is truncated first and word_count is computed from the stored text. -/
def extract_success (domain url : String) (parts : PageParts) : Except String Page :=
  let title :=
    match parts.title with
    | some t => pyStripWs t
    | none => "No Title"
  let description :=
    match parts.meta_description with
    | some d => pyStripWs d
    | none => ""
  let headings := parts.headings.map pyStripWs
  let text_content := pyTake 1000 (pyCollapse parts.rawText)
  match collectLinks domain url parts.hrefs with
  | .error e => .error e
  | .ok links =>
    .ok { url := url, title := title, description := description,
          headings := headings,
          text_content := text_content,
          word_count := (pySplit text_content).length,
          links := links, status := "success" }

/-- extract_page_content including its try/except. -/
def fetch_page (domain : String) (oracle : String → Except String PageParts)
    (url : String) : Page :=
  match oracle url with
  | .error e => errorPage url e
  | .ok parts =>
    match extract_success domain url parts with
    | .error e => errorPage url e
    | .ok page => page

/-- _CATEGORY_KEYWORDS (lines 96-104): the reduced keyword table of the
GSC variant. -/
def category_keywords : List (String × List String) :=
  [("product", ["product", "buy", "shop", "price", "cart"]),
   ("blog", ["blog", "post", "article", "news"]),
   ("about", ["about", "company", "team", "history"]),
   ("contact", ["contact", "phone", "email", "address"]),
   ("service", ["service", "solution", "support"]),
   ("help", ["help", "faq", "guide", "tutorial"]),
   ("legal", ["privacy", "terms", "policy", "legal"])]

/-- " ".join([title, description, " ".join(headings), text_content]).lower(). -/
def classifyText (page : Page) : String :=
  pyLower (pyJoin " " [page.title, page.description,
                       pyJoin " " page.headings, page.text_content])

/-- classify_content (lines 106-112): scores = sum(k in text for k in kws). -/
def classify_content (page : Page) : String :=
  let scores := URLCat.scoreTable category_keywords (classifyText page)
  if maxSnd scores > 0 then URLCat.pickMax scores else "other"

structure HierInfo where
  depth : Nat
  file_ext : String
deriving DecidableEq, Repr

/-- hierarchy_info (lines 114-120): like URLCat's analyzer but with the
sentinel "html" already substituted for a missing extension. -/
def hierarchy_info (url : String) : Except String HierInfo :=
  match pyUrlparse url "" with
  | .error e => .error e
  | .ok parsed =>
    let parts := (pySplitChar '/' parsed.path).filter (fun p => p ≠ "")
    .ok { depth := parts.length,
          file_ext :=
            match parts.getLast? with
            | some last =>
              if last.data.contains '.' then (pySplitChar '.' last).getLastD ""
              else "html"
            | none => "html" }

structure Record where
  page : Page
  category : Option String
  hierarchy : Option HierInfo
  keywords : Option (List (String × Nat))
deriving DecidableEq, Repr

/-- The enrichment inside crawl (lines 130-135); the keyword stage runs
unconditionally on the stored text. -/
def enrich (tok : String → List String) (page : Page) (url : String) :
    Except String Record :=
  let category := classify_content page
  match hierarchy_info url with
  | .error e => .error e
  | .ok hier =>
    .ok { page := page, category := some category, hierarchy := some hier,
          keywords := some (topKeywords (tok page.text_content)) }

/-- The link-enqueue loop (lines 137-139): also capped so that
len(done)+len(todo) stays below max_pages. -/
def pushLinks (maxPages : Nat) (done queue links : List String) : List String :=
  links.foldl
    (fun q l =>
      if l ∉ done ∧ l ∉ q ∧ done.length + q.length < maxPages then q ++ [l] else q)
    queue

/-- The while loop of crawl (lines 122-141), returning the final
(site_data, done) pair. -/
def crawl_loop (oracle : String → Except String PageParts)
    (tok : String → List String) (domain : String) (maxPages : Nat) :
    List String → List String → List Record →
    Except String (List Record × List String)
  | [], done, site_data => .ok (site_data, done)
  | current :: rest, done, site_data =>
    if h : done.length < maxPages then
      if current ∈ done then
        crawl_loop oracle tok domain maxPages rest done site_data
      else
        let done1 := done ++ [current]
        let page := fetch_page domain oracle current
        if page.status = "success" then
          match enrich tok page current with
          | .error e => .error e
          | .ok record =>
            crawl_loop oracle tok domain maxPages
              (pushLinks maxPages done1 rest page.links) done1 (site_data ++ [record])
        else
          crawl_loop oracle tok domain maxPages rest done1 site_data
    else .ok (site_data, done)
termination_by toCrawl done _ => (maxPages - done.length, toCrawl.length)
decreasing_by
  all_goals simp_wf
  all_goals first
    | exact Prod.Lex.right _ (by omega)
    | exact Prod.Lex.left _ _ (by omega)

/-- crawl with the __init__ state: the queue is seeded with
base_url.rstrip('/') while the domain comes from the unstripped base_url. -/
def crawl_state (oracle : String → Except String PageParts)
    (tok : String → List String) (base_url : String) (maxPages : Nat) :
    Except String (List Record × List String) :=
  match pyUrlparse base_url "" with
  | .error e => .error e
  | .ok p => crawl_loop oracle tok p.netloc maxPages [pyRstripSlash base_url] [] []

/-- crawl's return value: the accumulated site_data. -/
def crawl (oracle : String → Except String PageParts)
    (tok : String → List String) (base_url : String) (maxPages : Nat) :
    Except String (List Record) :=
  (crawl_state oracle tok base_url maxPages).map (fun s => s.1)

end GSC

/-! ## Spec-side definitions for the classifier refinement claim -/

/-- The classifier selection rule as the spec words it (section 4.5): score
every category of the ordered table, and if the maximum score is positive
return the earliest category in declaration order attaining it, else
"other". -/
def specSelect (tbl : List (String × List String)) (text : String) : String :=
  let scores := URLCat.scoreTable tbl text
  let m := maxSnd scores
  if 0 < m then
    match scores.find? (fun p => p.2 == m) with
    | some p => p.1
    | none => "other"
  else "other"

/-- The category keyword table exactly as tabulated in spec section 4.5. -/
def spec_categories : List (String × List String) :=
  [("product", ["product", "buy", "shop", "store", "price", "cart", "purchase", "item", "catalog"]),
   ("blog", ["blog", "post", "article", "news", "story", "read", "author", "published"]),
   ("about", ["about", "company", "team", "history", "mission", "vision", "who we are"]),
   ("contact", ["contact", "phone", "email", "address", "location", "reach us", "get in touch"]),
   ("service", ["service", "solution", "consulting", "support", "what we do", "offerings"]),
   ("help", ["help", "faq", "support", "documentation", "guide", "tutorial", "how to"]),
   ("legal", ["privacy", "terms", "legal", "policy", "agreement", "disclaimer", "cookies"])]

/-! ## Concrete crawl scenarios used by individual claims -/

/-- A page whose parse yields no links: the smallest successful crawl. -/
def tinyParts : PageParts :=
  { title := none, meta_description := none, headings := [],
    rawText := "hello", hrefs := [] }

def tinyOracle : String → Except String PageParts := fun _ => .ok tinyParts

def tinyRecordU : URLCat.Record :=
  { page := { url := "http://x", title := "No Title", description := "",
              headings := [], text_content := "hello", word_count := 1,
              links := [], status := "success" },
    category := some "other",
    hierarchy := some { depth := 0, path_parts := [], has_query := false,
                        file_extension := none },
    keywords := some [("hello", 1)] }

def tinyRecordG : GSC.Record :=
  { page := { url := "http://x", title := "No Title", description := "",
              headings := [], text_content := "hello", word_count := 1,
              links := [], status := "success" },
    category := some "other",
    hierarchy := some { depth := 0, file_ext := "html" },
    keywords := some [("hello", 1)] }

/-- One-success-one-error scenario: the seed page succeeds and links to a
single in-domain page whose fetch raises. -/
def c1_parts : PageParts :=
  { title := some "Welcome", meta_description := none, headings := [],
    rawText := "welcome home", hrefs := ["https://a.com/err"] }

def c1_oracle : String → Except String PageParts := fun u =>
  if u = "https://a.com/" then .ok c1_parts else .error "boom"

def c1_record : URLCat.Record :=
  { page := { url := "https://a.com/", title := "Welcome", description := "",
              headings := [], text_content := "welcome home", word_count := 2,
              links := ["https://a.com/err"], status := "success" },
    category := some "other",
    hierarchy := some { depth := 0, path_parts := [], has_query := false,
                        file_extension := none },
    keywords := some [("welcome", 1), ("home", 1)] }

/-- A page whose only classifier-relevant word is "store": a product
keyword in the spec table, absent from the GSC table. -/
def c2_page : Page :=
  { url := "u", title := "store", description := "", headings := [],
    text_content := "", word_count := 1, links := [], status := "success" }

/-- A page whose collapsed text has 1249 characters (250 words), so the
stored 1000-character prefix holds only 200 words. -/
def c5_parts : PageParts :=
  { title := none, meta_description := none, headings := [],
    rawText := pyJoin " " (List.replicate 250 "abcd"), hrefs := [] }

/-! ## Helper lemmas: one-step equations for the crawl loops -/

namespace URLCat

theorem crawl_loop_nil (o : String → Except String PageParts)
    (t : String → List String) (d : String) (m : Nat) (c : List String)
    (s : List Record) : crawl_loop o t d m [] c s = .ok (s, c) := by
  simp [crawl_loop]

theorem crawl_loop_stop (o : String → Except String PageParts)
    (t : String → List String) (d : String) (m : Nat) (u : String)
    (rest c : List String) (s : List Record) (h : ¬ c.length < m) :
    crawl_loop o t d m (u :: rest) c s = .ok (s, c) := by
  rw [crawl_loop]
  simp [h]

theorem crawl_loop_skip (o : String → Except String PageParts)
    (t : String → List String) (d : String) (m : Nat) (u : String)
    (rest c : List String) (s : List Record)
    (h1 : c.length < m) (h2 : u ∈ c) :
    crawl_loop o t d m (u :: rest) c s = crawl_loop o t d m rest c s := by
  rw [crawl_loop]
  simp [h1, h2]

theorem crawl_loop_err (o : String → Except String PageParts)
    (t : String → List String) (d : String) (m : Nat) (u : String)
    (rest c : List String) (s : List Record)
    (h1 : c.length < m) (h2 : u ∉ c)
    (h3 : (fetch_page d o u).status ≠ "success") :
    crawl_loop o t d m (u :: rest) c s =
      crawl_loop o t d m rest (c ++ [u]) s := by
  rw [crawl_loop]
  simp [h1, h2, h3]

theorem crawl_loop_succ (o : String → Except String PageParts)
    (t : String → List String) (d : String) (m : Nat) (u : String)
    (rest c : List String) (s : List Record) (r : Record)
    (h1 : c.length < m) (h2 : u ∉ c)
    (h3 : (fetch_page d o u).status = "success")
    (h4 : enrich t (fetch_page d o u) u = .ok r) :
    crawl_loop o t d m (u :: rest) c s =
      crawl_loop o t d m (pushLinks (c ++ [u]) rest (fetch_page d o u).links)
        (c ++ [u]) (s ++ [r]) := by
  rw [crawl_loop]
  simp [h1, h2, h3, h4]

end URLCat

namespace GSC

theorem crawl_loop_nil_g (o : String → Except String PageParts)
    (t : String → List String) (d : String) (m : Nat) (c : List String)
    (s : List Record) : crawl_loop o t d m [] c s = .ok (s, c) := by
  simp [crawl_loop]

theorem crawl_loop_stop_g (o : String → Except String PageParts)
    (t : String → List String) (d : String) (m : Nat) (u : String)
    (rest c : List String) (s : List Record) (h : ¬ c.length < m) :
    crawl_loop o t d m (u :: rest) c s = .ok (s, c) := by
  rw [crawl_loop]
  simp [h]

theorem crawl_loop_skip_g (o : String → Except String PageParts)
    (t : String → List String) (d : String) (m : Nat) (u : String)
    (rest c : List String) (s : List Record)
    (h1 : c.length < m) (h2 : u ∈ c) :
    crawl_loop o t d m (u :: rest) c s = crawl_loop o t d m rest c s := by
  rw [crawl_loop]
  simp [h1, h2]

theorem crawl_loop_err_g (o : String → Except String PageParts)
    (t : String → List String) (d : String) (m : Nat) (u : String)
    (rest c : List String) (s : List Record)
    (h1 : c.length < m) (h2 : u ∉ c)
    (h3 : (fetch_page d o u).status ≠ "success") :
    crawl_loop o t d m (u :: rest) c s =
      crawl_loop o t d m rest (c ++ [u]) s := by
  rw [crawl_loop]
  simp [h1, h2, h3]

theorem crawl_loop_succ_g (o : String → Except String PageParts)
    (t : String → List String) (d : String) (m : Nat) (u : String)
    (rest c : List String) (s : List Record) (r : Record)
    (h1 : c.length < m) (h2 : u ∉ c)
    (h3 : (fetch_page d o u).status = "success")
    (h4 : enrich t (fetch_page d o u) u = .ok r) :
    crawl_loop o t d m (u :: rest) c s =
      crawl_loop o t d m (pushLinks m (c ++ [u]) rest (fetch_page d o u).links)
        (c ++ [u]) (s ++ [r]) := by
  rw [crawl_loop]
  simp [h1, h2, h3, h4]

end GSC

/-! ## Helper lemmas: evaluation of the tiny one-page crawl -/

theorem tiny_eval_urlcat :
    URLCat.crawl_state tinyOracle pySplit "http://x" 1 =
      .ok ([tinyRecordU], ["http://x"]) := by
  have h0 : pyUrlparse "http://x" "" =
      .ok { scheme := "http", netloc := "x", path := "", params := "",
            query := "", fragment := "" } := by decide
  rw [URLCat.crawl_state, h0]
  dsimp only
  rw [URLCat.crawl_loop_succ tinyOracle pySplit "x" 1 "http://x" [] [] []
        tinyRecordU (by decide) (by decide) (by decide) (by decide)]
  simp only [List.nil_append]
  rw [show URLCat.pushLinks ["http://x"] []
        (URLCat.fetch_page "x" tinyOracle "http://x").links = [] from by decide]
  exact URLCat.crawl_loop_nil tinyOracle pySplit "x" 1 ["http://x"] [tinyRecordU]

theorem tiny_eval_gsc :
    GSC.crawl_state tinyOracle pySplit "http://x" 1 =
      .ok ([tinyRecordG], ["http://x"]) := by
  have h0 : pyUrlparse "http://x" "" =
      .ok { scheme := "http", netloc := "x", path := "", params := "",
            query := "", fragment := "" } := by decide
  have hbase : pyRstripSlash "http://x" = "http://x" := by decide
  rw [GSC.crawl_state, h0]
  dsimp only
  rw [hbase]
  rw [GSC.crawl_loop_succ_g tinyOracle pySplit "x" 1 "http://x" [] [] []
        tinyRecordG (by decide) (by decide) (by decide) (by decide)]
  simp only [List.nil_append]
  rw [show GSC.pushLinks 1 ["http://x"] []
        (GSC.fetch_page "x" tinyOracle "http://x").links = [] from by decide]
  exact GSC.crawl_loop_nil_g tinyOracle pySplit "x" 1 ["http://x"] [tinyRecordG]

/-! ## Helper lemmas: shapes of extraction and enrichment results -/

namespace URLCat

theorem crawl_loop_succ_bad (o : String → Except String PageParts)
    (t : String → List String) (d : String) (m : Nat) (u : String)
    (rest c : List String) (s : List Record) (e : String)
    (h1 : c.length < m) (h2 : u ∉ c)
    (h3 : (fetch_page d o u).status = "success")
    (h4 : enrich t (fetch_page d o u) u = .error e) :
    crawl_loop o t d m (u :: rest) c s = .error e := by
  rw [crawl_loop]
  simp [h1, h2, h3, h4]

theorem extract_success_url (d u : String) (parts : PageParts) (p : Page)
    (h : extract_success d u parts = .ok p) : p.url = u := by
  unfold extract_success at h
  cases hc : collectLinks d u parts.hrefs with
  | error e => rw [hc] at h; cases h
  | ok links => rw [hc] at h; cases h; rfl

theorem fetch_page_url (d : String) (o : String → Except String PageParts)
    (u : String) : (fetch_page d o u).url = u := by
  unfold fetch_page
  split
  · rfl
  next parts hparts =>
    split
    · rfl
    next page heq => exact extract_success_url d u parts page heq

theorem enrich_shape (t : String → List String) (pg : Page) (u : String)
    (r : Record) (h : enrich t pg u = .ok r) :
    r.page = pg ∧ r.category.isSome ∧ r.hierarchy.isSome ∧ r.keywords.isSome := by
  unfold enrich at h
  cases ha : analyze_url_hierarchy u with
  | error e => rw [ha] at h; cases h
  | ok hier => rw [ha] at h; cases h; exact ⟨rfl, rfl, rfl, rfl⟩

end URLCat

namespace GSC

theorem crawl_loop_succ_bad_g (o : String → Except String PageParts)
    (t : String → List String) (d : String) (m : Nat) (u : String)
    (rest c : List String) (s : List Record) (e : String)
    (h1 : c.length < m) (h2 : u ∉ c)
    (h3 : (fetch_page d o u).status = "success")
    (h4 : enrich t (fetch_page d o u) u = .error e) :
    crawl_loop o t d m (u :: rest) c s = .error e := by
  rw [crawl_loop]
  simp [h1, h2, h3, h4]

theorem extract_success_url_g (d u : String) (parts : PageParts) (p : Page)
    (h : extract_success d u parts = .ok p) : p.url = u := by
  unfold extract_success at h
  cases hc : collectLinks d u parts.hrefs with
  | error e => rw [hc] at h; cases h
  | ok links => rw [hc] at h; cases h; rfl

theorem fetch_page_url_g (d : String) (o : String → Except String PageParts)
    (u : String) : (fetch_page d o u).url = u := by
  unfold fetch_page
  split
  · rfl
  next parts hparts =>
    split
    · rfl
    next page heq => exact extract_success_url_g d u parts page heq

theorem enrich_shape_g (t : String → List String) (pg : Page) (u : String)
    (r : Record) (h : enrich t pg u = .ok r) :
    r.page = pg ∧ r.category.isSome ∧ r.hierarchy.isSome ∧ r.keywords.isSome := by
  unfold enrich at h
  cases ha : hierarchy_info u with
  | error e => rw [ha] at h; cases h
  | ok hier => rw [ha] at h; cases h; exact ⟨rfl, rfl, rfl, rfl⟩

end GSC

/-! ## Helper lemmas: crawl loop invariants (budget, uniqueness, success) -/

namespace URLCat

theorem crawl_loop_budget (o : String → Except String PageParts)
    (t : String → List String) (d : String) (m : Nat) :
    ∀ (toC c : List String) (s res : List Record) (vis : List String),
      crawl_loop o t d m toC c s = .ok (res, vis) → c.length ≤ m →
      vis.length ≤ m ∧ res.length + c.length ≤ s.length + m := by
  intro toC c s
  induction toC, c, s using crawl_loop.induct o t d m with
  | case1 c s =>
    intro res vis h hc
    rw [crawl_loop_nil] at h
    simp only [Except.ok.injEq, Prod.mk.injEq] at h
    obtain ⟨rfl, rfl⟩ := h
    omega
  | case2 current rest c s h1 h2 ih =>
    intro res vis h hc
    rw [crawl_loop_skip o t d m current rest c s h1 h2] at h
    exact ih res vis h hc
  | case3 current rest c s h1 h2 page hst e herr =>
    intro res vis h hc
    rw [crawl_loop_succ_bad o t d m current rest c s e h1 h2 hst herr] at h
    cases h
  | case4 current rest c s h1 h2 c1 page hst r hok ih =>
    intro res vis h hc
    have hc1 : c1.length = c.length + 1 := by
      simp [show c1 = c ++ [current] from rfl]
    rw [crawl_loop_succ o t d m current rest c s r h1 h2 hst hok] at h
    have hrec := ih res vis h (by omega)
    have hs : (s ++ [r]).length = s.length + 1 := by simp
    omega
  | case5 current rest c s h1 h2 c1 page hst ih =>
    intro res vis h hc
    have hc1 : c1.length = c.length + 1 := by
      simp [show c1 = c ++ [current] from rfl]
    rw [crawl_loop_err o t d m current rest c s h1 h2 hst] at h
    have hrec := ih res vis h (by omega)
    omega
  | case6 current rest c s h1 =>
    intro res vis h hc
    rw [crawl_loop_stop o t d m current rest c s h1] at h
    simp only [Except.ok.injEq, Prod.mk.injEq] at h
    obtain ⟨rfl, rfl⟩ := h
    omega

theorem crawl_loop_nodup (o : String → Except String PageParts)
    (t : String → List String) (d : String) (m : Nat) :
    ∀ (toC c : List String) (s res : List Record) (vis : List String),
      crawl_loop o t d m toC c s = .ok (res, vis) →
      (s.map (fun r => r.page.url)).Nodup →
      (∀ u, u ∈ s.map (fun r => r.page.url) → u ∈ c) →
      c.Nodup →
      (res.map (fun r => r.page.url)).Nodup ∧ vis.Nodup := by
  intro toC c s
  induction toC, c, s using crawl_loop.induct o t d m with
  | case1 c s =>
    intro res vis h hs hsub hc
    rw [crawl_loop_nil] at h
    simp only [Except.ok.injEq, Prod.mk.injEq] at h
    obtain ⟨rfl, rfl⟩ := h
    exact ⟨hs, hc⟩
  | case2 current rest c s h1 h2 ih =>
    intro res vis h hs hsub hc
    rw [crawl_loop_skip o t d m current rest c s h1 h2] at h
    exact ih res vis h hs hsub hc
  | case3 current rest c s h1 h2 page hst e herr =>
    intro res vis h hs hsub hc
    rw [crawl_loop_succ_bad o t d m current rest c s e h1 h2 hst herr] at h
    cases h
  | case4 current rest c s h1 h2 c1 page hst r hok ih =>
    intro res vis h hs hsub hc
    have hc1 : c1 = c ++ [current] := rfl
    have hr : r.page.url = current := by
      rw [(enrich_shape t page current r hok).1,
          show page = fetch_page d o current from rfl, fetch_page_url]
    rw [crawl_loop_succ o t d m current rest c s r h1 h2 hst hok] at h
    refine ih res vis h ?_ ?_ ?_
    · simp only [List.map_append, List.map_cons, List.map_nil, hr]
      rw [List.nodup_append]
      refine ⟨hs, List.nodup_singleton current, ?_⟩
      intro u hu hcur
      simp only [List.mem_singleton] at hcur
      subst hcur
      exact h2 (hsub u hu)
    · intro u hu
      simp only [List.map_append, List.map_cons, List.map_nil, hr,
                 List.mem_append, List.mem_singleton] at hu
      rw [hc1]
      rcases hu with hu | rfl
      · exact List.mem_append_left _ (hsub u hu)
      · exact List.mem_append_right _ (List.mem_singleton_self u)
    · rw [hc1, List.nodup_append]
      exact ⟨hc, List.nodup_singleton current,
             fun u hu hcur => h2 ((List.mem_singleton.mp hcur) ▸ hu)⟩
  | case5 current rest c s h1 h2 c1 page hst ih =>
    intro res vis h hs hsub hc
    have hc1 : c1 = c ++ [current] := rfl
    rw [crawl_loop_err o t d m current rest c s h1 h2 hst] at h
    refine ih res vis h hs ?_ ?_
    · intro u hu
      rw [hc1]
      exact List.mem_append_left _ (hsub u hu)
    · rw [hc1, List.nodup_append]
      exact ⟨hc, List.nodup_singleton current,
             fun u hu hcur => h2 ((List.mem_singleton.mp hcur) ▸ hu)⟩
  | case6 current rest c s h1 =>
    intro res vis h hs hsub hc
    rw [crawl_loop_stop o t d m current rest c s h1] at h
    simp only [Except.ok.injEq, Prod.mk.injEq] at h
    obtain ⟨rfl, rfl⟩ := h
    exact ⟨hs, hc⟩

theorem crawl_loop_success (o : String → Except String PageParts)
    (t : String → List String) (d : String) (m : Nat) :
    ∀ (toC c : List String) (s res : List Record) (vis : List String),
      crawl_loop o t d m toC c s = .ok (res, vis) →
      (∀ r ∈ s, r.page.status = "success" ∧ r.category.isSome ∧
        r.hierarchy.isSome ∧ r.keywords.isSome) →
      ∀ r ∈ res, r.page.status = "success" ∧ r.category.isSome ∧
        r.hierarchy.isSome ∧ r.keywords.isSome := by
  intro toC c s
  induction toC, c, s using crawl_loop.induct o t d m with
  | case1 c s =>
    intro res vis h hall
    rw [crawl_loop_nil] at h
    simp only [Except.ok.injEq, Prod.mk.injEq] at h
    obtain ⟨rfl, rfl⟩ := h
    exact hall
  | case2 current rest c s h1 h2 ih =>
    intro res vis h hall
    rw [crawl_loop_skip o t d m current rest c s h1 h2] at h
    exact ih res vis h hall
  | case3 current rest c s h1 h2 page hst e herr =>
    intro res vis h hall
    rw [crawl_loop_succ_bad o t d m current rest c s e h1 h2 hst herr] at h
    cases h
  | case4 current rest c s h1 h2 c1 page hst r hok ih =>
    intro res vis h hall
    rw [crawl_loop_succ o t d m current rest c s r h1 h2 hst hok] at h
    refine ih res vis h ?_
    intro q hq
    rcases List.mem_append.mp hq with hq | hq
    · exact hall q hq
    · obtain ⟨hpage, hcat, hhier, hkw⟩ := enrich_shape t page current r hok
      rw [List.mem_singleton.mp hq]
      exact ⟨by rw [hpage]; exact hst, hcat, hhier, hkw⟩
  | case5 current rest c s h1 h2 c1 page hst ih =>
    intro res vis h hall
    rw [crawl_loop_err o t d m current rest c s h1 h2 hst] at h
    exact ih res vis h hall
  | case6 current rest c s h1 =>
    intro res vis h hall
    rw [crawl_loop_stop o t d m current rest c s h1] at h
    simp only [Except.ok.injEq, Prod.mk.injEq] at h
    obtain ⟨rfl, rfl⟩ := h
    exact hall

end URLCat

namespace GSC

theorem crawl_loop_budget_g (o : String → Except String PageParts)
    (t : String → List String) (d : String) (m : Nat) :
    ∀ (toC c : List String) (s res : List Record) (vis : List String),
      crawl_loop o t d m toC c s = .ok (res, vis) → c.length ≤ m →
      vis.length ≤ m ∧ res.length + c.length ≤ s.length + m := by
  intro toC c s
  induction toC, c, s using crawl_loop.induct o t d m with
  | case1 c s =>
    intro res vis h hc
    rw [crawl_loop_nil_g] at h
    simp only [Except.ok.injEq, Prod.mk.injEq] at h
    obtain ⟨rfl, rfl⟩ := h
    omega
  | case2 current rest c s h1 h2 ih =>
    intro res vis h hc
    rw [crawl_loop_skip_g o t d m current rest c s h1 h2] at h
    exact ih res vis h hc
  | case3 current rest c s h1 h2 page hst e herr =>
    intro res vis h hc
    rw [crawl_loop_succ_bad_g o t d m current rest c s e h1 h2 hst herr] at h
    cases h
  | case4 current rest c s h1 h2 c1 page hst r hok ih =>
    intro res vis h hc
    have hc1 : c1.length = c.length + 1 := by
      simp [show c1 = c ++ [current] from rfl]
    rw [crawl_loop_succ_g o t d m current rest c s r h1 h2 hst hok] at h
    have hrec := ih res vis h (by omega)
    have hs : (s ++ [r]).length = s.length + 1 := by simp
    omega
  | case5 current rest c s h1 h2 c1 page hst ih =>
    intro res vis h hc
    have hc1 : c1.length = c.length + 1 := by
      simp [show c1 = c ++ [current] from rfl]
    rw [crawl_loop_err_g o t d m current rest c s h1 h2 hst] at h
    have hrec := ih res vis h (by omega)
    omega
  | case6 current rest c s h1 =>
    intro res vis h hc
    rw [crawl_loop_stop_g o t d m current rest c s h1] at h
    simp only [Except.ok.injEq, Prod.mk.injEq] at h
    obtain ⟨rfl, rfl⟩ := h
    omega

theorem crawl_loop_nodup_g (o : String → Except String PageParts)
    (t : String → List String) (d : String) (m : Nat) :
    ∀ (toC c : List String) (s res : List Record) (vis : List String),
      crawl_loop o t d m toC c s = .ok (res, vis) →
      (s.map (fun r => r.page.url)).Nodup →
      (∀ u, u ∈ s.map (fun r => r.page.url) → u ∈ c) →
      c.Nodup →
      (res.map (fun r => r.page.url)).Nodup ∧ vis.Nodup := by
  intro toC c s
  induction toC, c, s using crawl_loop.induct o t d m with
  | case1 c s =>
    intro res vis h hs hsub hc
    rw [crawl_loop_nil_g] at h
    simp only [Except.ok.injEq, Prod.mk.injEq] at h
    obtain ⟨rfl, rfl⟩ := h
    exact ⟨hs, hc⟩
  | case2 current rest c s h1 h2 ih =>
    intro res vis h hs hsub hc
    rw [crawl_loop_skip_g o t d m current rest c s h1 h2] at h
    exact ih res vis h hs hsub hc
  | case3 current rest c s h1 h2 page hst e herr =>
    intro res vis h hs hsub hc
    rw [crawl_loop_succ_bad_g o t d m current rest c s e h1 h2 hst herr] at h
    cases h
  | case4 current rest c s h1 h2 c1 page hst r hok ih =>
    intro res vis h hs hsub hc
    have hc1 : c1 = c ++ [current] := rfl
    have hr : r.page.url = current := by
      rw [(enrich_shape_g t page current r hok).1,
          show page = fetch_page d o current from rfl, fetch_page_url_g]
    rw [crawl_loop_succ_g o t d m current rest c s r h1 h2 hst hok] at h
    refine ih res vis h ?_ ?_ ?_
    · simp only [List.map_append, List.map_cons, List.map_nil, hr]
      rw [List.nodup_append]
      refine ⟨hs, List.nodup_singleton current, ?_⟩
      intro u hu hcur
      simp only [List.mem_singleton] at hcur
      subst hcur
      exact h2 (hsub u hu)
    · intro u hu
      simp only [List.map_append, List.map_cons, List.map_nil, hr,
                 List.mem_append, List.mem_singleton] at hu
      rw [hc1]
      rcases hu with hu | rfl
      · exact List.mem_append_left _ (hsub u hu)
      · exact List.mem_append_right _ (List.mem_singleton_self u)
    · rw [hc1, List.nodup_append]
      exact ⟨hc, List.nodup_singleton current,
             fun u hu hcur => h2 ((List.mem_singleton.mp hcur) ▸ hu)⟩
  | case5 current rest c s h1 h2 c1 page hst ih =>
    intro res vis h hs hsub hc
    have hc1 : c1 = c ++ [current] := rfl
    rw [crawl_loop_err_g o t d m current rest c s h1 h2 hst] at h
    refine ih res vis h hs ?_ ?_
    · intro u hu
      rw [hc1]
      exact List.mem_append_left _ (hsub u hu)
    · rw [hc1, List.nodup_append]
      exact ⟨hc, List.nodup_singleton current,
             fun u hu hcur => h2 ((List.mem_singleton.mp hcur) ▸ hu)⟩
  | case6 current rest c s h1 =>
    intro res vis h hs hsub hc
    rw [crawl_loop_stop_g o t d m current rest c s h1] at h
    simp only [Except.ok.injEq, Prod.mk.injEq] at h
    obtain ⟨rfl, rfl⟩ := h
    exact ⟨hs, hc⟩

theorem crawl_loop_success_g (o : String → Except String PageParts)
    (t : String → List String) (d : String) (m : Nat) :
    ∀ (toC c : List String) (s res : List Record) (vis : List String),
      crawl_loop o t d m toC c s = .ok (res, vis) →
      (∀ r ∈ s, r.page.status = "success" ∧ r.category.isSome ∧
        r.hierarchy.isSome ∧ r.keywords.isSome) →
      ∀ r ∈ res, r.page.status = "success" ∧ r.category.isSome ∧
        r.hierarchy.isSome ∧ r.keywords.isSome := by
  intro toC c s
  induction toC, c, s using crawl_loop.induct o t d m with
  | case1 c s =>
    intro res vis h hall
    rw [crawl_loop_nil_g] at h
    simp only [Except.ok.injEq, Prod.mk.injEq] at h
    obtain ⟨rfl, rfl⟩ := h
    exact hall
  | case2 current rest c s h1 h2 ih =>
    intro res vis h hall
    rw [crawl_loop_skip_g o t d m current rest c s h1 h2] at h
    exact ih res vis h hall
  | case3 current rest c s h1 h2 page hst e herr =>
    intro res vis h hall
    rw [crawl_loop_succ_bad_g o t d m current rest c s e h1 h2 hst herr] at h
    cases h
  | case4 current rest c s h1 h2 c1 page hst r hok ih =>
    intro res vis h hall
    rw [crawl_loop_succ_g o t d m current rest c s r h1 h2 hst hok] at h
    refine ih res vis h ?_
    intro q hq
    rcases List.mem_append.mp hq with hq | hq
    · exact hall q hq
    · obtain ⟨hpage, hcat, hhier, hkw⟩ := enrich_shape_g t page current r hok
      rw [List.mem_singleton.mp hq]
      exact ⟨by rw [hpage]; exact hst, hcat, hhier, hkw⟩
  | case5 current rest c s h1 h2 c1 page hst ih =>
    intro res vis h hall
    rw [crawl_loop_err_g o t d m current rest c s h1 h2 hst] at h
    exact ih res vis h hall
  | case6 current rest c s h1 =>
    intro res vis h hall
    rw [crawl_loop_stop_g o t d m current rest c s h1] at h
    simp only [Except.ok.injEq, Prod.mk.injEq] at h
    obtain ⟨rfl, rfl⟩ := h
    exact hall

end GSC

/-! ## Helper lemmas: whitespace split / join round trip -/

theorem splitWsGroups_ne_nil : ∀ l : List Char, splitWsGroups l ≠ [] := by
  intro l
  induction l with
  | nil => simp [splitWsGroups]
  | cons c t ih =>
    simp only [splitWsGroups]
    by_cases hc : pyIsSpace c
    · simp [hc]
    · simp only [hc]
      cases splitWsGroups t with
      | nil => simp
      | cons w ws => simp

theorem splitWsGroups_nonspace :
    ∀ (l : List Char) (w : List Char) (c : Char),
      w ∈ splitWsGroups l → c ∈ w → pyIsSpace c = false := by
  intro l
  induction l with
  | nil =>
    intro w c hw hc
    simp [splitWsGroups] at hw
    subst hw
    cases hc
  | cons x t ih =>
    intro w c hw hc
    simp only [splitWsGroups] at hw
    by_cases hx : pyIsSpace x
    · simp only [hx, if_true, List.mem_cons] at hw
      rcases hw with rfl | hw
      · cases hc
      · exact ih w c hw hc
    · simp only [hx, if_false, Bool.false_eq_true] at hw
      rcases hg : splitWsGroups t with _ | ⟨w0, ws⟩
      · exact absurd hg (splitWsGroups_ne_nil t)
      · rw [hg] at hw
        simp only [List.mem_cons] at hw
        rcases hw with rfl | hw
        · rcases List.mem_cons.mp hc with rfl | hc0
          · simpa using hx
          · exact ih w0 c (hg ▸ List.mem_cons_self w0 ws) hc0
        · exact ih w c (hg ▸ List.mem_cons_of_mem w0 hw) hc

theorem splitWsGroups_append_word :
    ∀ (w l : List Char) (g : List Char) (gs : List (List Char)),
      splitWsGroups l = g :: gs → (∀ c ∈ w, pyIsSpace c = false) →
      splitWsGroups (w ++ l) = (w ++ g) :: gs := by
  intro w
  induction w with
  | nil => intro l g gs hl _; simpa using hl
  | cons c w' ih =>
    intro l g gs hl hns
    have hc : pyIsSpace c = false := hns c (List.mem_cons_self c w')
    have hrec := ih l g gs hl (fun x hx => hns x (List.mem_cons_of_mem c hx))
    simp only [List.cons_append, splitWsGroups, hc, Bool.false_eq_true, if_false]
    rw [show w'.append l = w' ++ l from rfl, hrec]

theorem splitWsGroups_space (l : List Char) :
    splitWsGroups (' ' :: l) = [] :: splitWsGroups l := by
  simp [splitWsGroups, pyIsSpace]

theorem split_join :
    ∀ ws : List (List Char),
      (∀ w ∈ ws, w ≠ [] ∧ ∀ c ∈ w, pyIsSpace c = false) →
      (splitWsGroups ((List.intersperse [' '] ws).flatten)).filter (fun w => w ≠ []) = ws := by
  intro ws
  induction ws with
  | nil => intro _; simp [splitWsGroups]
  | cons w rest ih =>
    intro hprops
    obtain ⟨hw_ne, hw_ns⟩ := hprops w (List.mem_cons_self w rest)
    cases rest with
    | nil =>
      have h1 : splitWsGroups ([] : List Char) = [] :: [] := by simp [splitWsGroups]
      have := splitWsGroups_append_word w [] [] [] h1 hw_ns
      simp only [List.intersperse_singleton, List.flatten, List.append_nil] at *
      rw [this]
      simp [hw_ne]
    | cons v rest' =>
      have hrec := ih (fun x hx => hprops x (List.mem_cons_of_mem w hx))
      rw [List.intersperse_cons_cons]
      simp only [List.flatten_cons]
      rw [show [' '] ++ (List.intersperse [' '] (v :: rest')).flatten =
            ' ' :: (List.intersperse [' '] (v :: rest')).flatten from rfl]
      have hsp := splitWsGroups_space ((List.intersperse [' '] (v :: rest')).flatten)
      have := splitWsGroups_append_word w
        (' ' :: (List.intersperse [' '] (v :: rest')).flatten)
        [] (splitWsGroups ((List.intersperse [' '] (v :: rest')).flatten)) hsp hw_ns
      rw [this]
      simp only [List.append_nil, List.filter_cons]
      rw [if_pos (by simpa using hw_ne)]
      rw [hrec]

theorem pySplit_collapse (s : String) : pySplit (pyCollapse s) = pySplit s := by
  unfold pyCollapse pyJoin pySplit
  have hmap : ((((splitWsGroups s.data).filter (fun w => w ≠ [])).map
        (fun w => (⟨w⟩ : String))).map String.data) =
      (splitWsGroups s.data).filter (fun w => w ≠ []) := by
    rw [List.map_map]
    exact List.map_id'' (fun w => rfl) _
  rw [hmap]
  congr 1
  exact split_join ((splitWsGroups s.data).filter (fun w => w ≠ []))
    (fun w hw => ⟨by simpa using (List.mem_filter.mp hw).2,
                  fun c hc => splitWsGroups_nonspace s.data w c
                    (List.mem_filter.mp hw).1 hc⟩)

/-! ## Helper lemmas: Python max-by-value picks the first maximal entry -/

theorem pyMaxSnd_find :
    ∀ (t : List (α × Nat)) (best : α × Nat),
      List.find? (fun q => q.2 == max best.2 (maxSnd t)) (best :: t) =
        some (pyMaxSnd t best) := by
  intro t
  induction t with
  | nil =>
    intro best
    simp [maxSnd, pyMaxSnd, List.find?]
  | cons p t' ih =>
    intro best
    by_cases hbp : best.2 < p.2
    · have hm : max best.2 (maxSnd (p :: t')) = max p.2 (maxSnd t') := by
        simp only [maxSnd]; omega
      have hb : (best.2 == max p.2 (maxSnd t')) = false := by
        simp only [beq_eq_false_iff_ne, ne_eq]; omega
      rw [hm]
      rw [List.find?]
      rw [hb]
      simp only [pyMaxSnd, if_pos hbp]
      exact ih p
    · have hm : max best.2 (maxSnd (p :: t')) = max best.2 (maxSnd t') := by
        simp only [maxSnd]; omega
      have hih := ih best
      rw [hm]
      simp only [pyMaxSnd, if_neg hbp]
      by_cases hb : best.2 = max best.2 (maxSnd t')
      · have hbt : (best.2 == max best.2 (maxSnd t')) = true := by
          simpa using hb
        rw [List.find?, hbt]
        rw [List.find?, hbt] at hih
        exact hih
      · have hbf : (best.2 == max best.2 (maxSnd t')) = false := by
          simpa using hb
        have hpf : (p.2 == max best.2 (maxSnd t')) = false := by
          simp only [beq_eq_false_iff_ne, ne_eq]
          omega
        rw [List.find?, hbf, List.find?, hpf]
        rw [List.find?, hbf] at hih
        exact hih

/-! ## Helper lemmas: interleaved dedup equals filter-then-dedup -/

theorem dedupFirstAux_congr [DecidableEq α] :
    ∀ (l s1 s2 : List α), (∀ x, x ∈ s1 ↔ x ∈ s2) →
      dedupFirstAux s1 l = dedupFirstAux s2 l := by
  intro l
  induction l with
  | nil => intro s1 s2 _; rfl
  | cons x t ih =>
    intro s1 s2 hiff
    simp only [dedupFirstAux]
    by_cases hx : x ∈ s1
    · rw [if_pos hx, if_pos ((hiff x).mp hx)]
      exact ih s1 s2 hiff
    · rw [if_neg hx, if_neg (fun h => hx ((hiff x).mpr h))]
      congr 1
      refine ih (x :: s1) (x :: s2) ?_
      intro y
      simp [hiff y]

theorem foldl_dedup [DecidableEq α] :
    ∀ (l acc : List α),
      List.foldl (fun a x => if x ∈ a then a else a ++ [x]) acc l =
        acc ++ dedupFirstAux acc l := by
  intro l
  induction l with
  | nil => intro acc; simp [dedupFirstAux]
  | cons x t ih =>
    intro acc
    simp only [List.foldl_cons, dedupFirstAux]
    by_cases hx : x ∈ acc
    · rw [if_pos hx, if_pos hx, ih]
    · rw [if_neg hx, if_neg hx, ih]
      rw [dedupFirstAux_congr t (acc ++ [x]) (x :: acc) (by intro y; simp; tauto)]
      simp

theorem collect_fold (domain url : String) :
    ∀ (hrefs js acc : List String),
      exMapM (fun h => pyUrljoin url h) hrefs = .ok js →
      exFoldlM
        (fun acc h =>
          match pyUrljoin url h with
          | .error e => .error e
          | .ok href =>
            .ok (if URLCat.is_valid_url href domain && !(acc.contains href) then
                   acc ++ [href] else acc))
        acc hrefs =
      .ok (List.foldl (fun a x => if x ∈ a then a else a ++ [x]) acc
             (js.filter (fun x => URLCat.is_valid_url x domain))) := by
  intro hrefs
  induction hrefs with
  | nil =>
    intro js acc h
    simp only [exMapM, Except.ok.injEq] at h
    subst h
    simp [exFoldlM]
  | cons a t ih =>
    intro js acc h
    simp only [exMapM] at h
    cases hj : pyUrljoin url a with
    | error e => rw [hj] at h; cases h
    | ok y =>
      rw [hj] at h
      cases hrest : exMapM (fun h => pyUrljoin url h) t with
      | error e => rw [hrest] at h; cases h
      | ok ys =>
        rw [hrest] at h
        simp only [Except.ok.injEq] at h
        subst h
        simp only [exFoldlM, hj]
        by_cases hv : URLCat.is_valid_url y domain
        · simp only [List.filter_cons, hv, if_pos, List.foldl_cons, Bool.true_and]
          by_cases hmem : y ∈ acc
          · have hcont : acc.contains y = true := by
              exact List.elem_eq_true_of_mem hmem
            rw [hcont]
            simp only [Bool.not_true, Bool.and_false, if_neg, if_pos hmem]
            exact ih ys acc hrest
          · have hcont : acc.contains y = false := by
              simpa using hmem
            rw [hcont]
            simp only [Bool.not_false, Bool.and_true, if_pos, if_neg hmem]
            exact ih ys (acc ++ [y]) hrest
        · have hv' : URLCat.is_valid_url y domain = false := by
            simpa using hv
          simp only [List.filter_cons, hv', Bool.false_and, if_neg, if_false,
                     Bool.false_eq_true]
          exact ih ys acc hrest

/-- collectLinks on already-resolved links: filter through the scoper,
then first-occurrence dedup. -/
theorem collectLinks_spec (domain url : String) (hrefs js : List String)
    (h : exMapM (fun x => pyUrljoin url x) hrefs = .ok js) :
    URLCat.collectLinks domain url hrefs =
      .ok (dedupFirst (js.filter (fun x => URLCat.is_valid_url x domain))) := by
  unfold URLCat.collectLinks dedupFirst
  rw [collect_fold domain url hrefs js [] h, foldl_dedup]
  simp

/-! ## Helper lemmas: most_common is a descending stable selection -/

theorem mem_insertDescend (p x : α × Nat) :
    ∀ l : List (α × Nat), x ∈ insertDescend p l ↔ x = p ∨ x ∈ l := by
  intro l
  induction l with
  | nil => simp [insertDescend]
  | cons q t ih =>
    simp only [insertDescend]
    by_cases hpq : p.2 < q.2
    · rw [if_pos hpq]
      simp only [List.mem_cons, ih]
      tauto
    · rw [if_neg hpq]
      simp only [List.mem_cons]

theorem pairwise_insertDescend (p : α × Nat) :
    ∀ l : List (α × Nat),
      l.Pairwise (fun a b => b.2 ≤ a.2) →
      (insertDescend p l).Pairwise (fun a b => b.2 ≤ a.2) := by
  intro l
  induction l with
  | nil => intro _; simp [insertDescend]
  | cons q t ih =>
    intro hl
    rw [List.pairwise_cons] at hl
    obtain ⟨hq, ht⟩ := hl
    simp only [insertDescend]
    by_cases hpq : p.2 < q.2
    · rw [if_pos hpq]
      rw [List.pairwise_cons]
      refine ⟨?_, ih ht⟩
      intro x hx
      rcases (mem_insertDescend p x t).mp hx with rfl | hx
      · omega
      · exact hq x hx
    · rw [if_neg hpq]
      rw [List.pairwise_cons]
      refine ⟨?_, List.pairwise_cons.mpr ⟨hq, ht⟩⟩
      intro x hx
      rcases List.mem_cons.mp hx with rfl | hx
      · omega
      · have := hq x hx
        omega

theorem pairwise_sortDescend :
    ∀ l : List (α × Nat), (sortDescend l).Pairwise (fun a b => b.2 ≤ a.2) := by
  intro l
  induction l with
  | nil => simp [sortDescend]
  | cons p t ih => exact pairwise_insertDescend p (sortDescend t) ih

theorem mem_sortDescend (x : α × Nat) :
    ∀ l : List (α × Nat), x ∈ sortDescend l ↔ x ∈ l := by
  intro l
  induction l with
  | nil => simp [sortDescend]
  | cons p t ih =>
    simp only [sortDescend, mem_insertDescend, List.mem_cons, ih]

theorem mem_dedupFirstAux [DecidableEq α] (x : α) :
    ∀ (l seen : List α), x ∈ dedupFirstAux seen l ↔ x ∈ l ∧ x ∉ seen := by
  intro l
  induction l with
  | nil => intro seen; simp [dedupFirstAux]
  | cons y t ih =>
    intro seen
    simp only [dedupFirstAux]
    by_cases hy : y ∈ seen
    · rw [if_pos hy, ih]
      simp only [List.mem_cons]
      constructor
      · rintro ⟨hx, hs⟩; exact ⟨Or.inr hx, hs⟩
      · rintro ⟨hx | hx, hs⟩
        · subst hx; exact absurd hy hs
        · exact ⟨hx, hs⟩
    · rw [if_neg hy]
      simp only [List.mem_cons, ih]
      constructor
      · rintro (rfl | ⟨hx, hs⟩)
        · exact ⟨Or.inl rfl, hy⟩
        · simp only [List.mem_cons, not_or] at hs
          exact ⟨Or.inr hx, hs.2⟩
      · rintro ⟨rfl | hx, hs⟩
        · exact Or.inl rfl
        · by_cases hxy : x = y
          · exact Or.inl hxy
          · exact Or.inr ⟨hx, by simp [hxy, hs]⟩

theorem mem_dedupFirst [DecidableEq α] (x : α) (l : List α) :
    x ∈ dedupFirst l ↔ x ∈ l := by
  unfold dedupFirst
  rw [mem_dedupFirstAux]
  simp

theorem counterList_mem [DecidableEq α] (l : List α) (p : α × Nat)
    (h : p ∈ counterList l) : p.1 ∈ l ∧ p.2 = l.count p.1 := by
  unfold counterList at h
  obtain ⟨w, hw, rfl⟩ := List.mem_map.mp h
  exact ⟨(mem_dedupFirst w l).mp hw, rfl⟩

theorem topKeywords_facts (tokens : List String) :
    (topKeywords tokens).length ≤ 5 ∧
    (topKeywords tokens).Pairwise (fun a b => b.2 ≤ a.2) ∧
    ∀ p ∈ topKeywords tokens,
      p.1 ∈ keywordCandidates tokens ∧
      p.2 = (keywordCandidates tokens).count p.1 := by
  refine ⟨List.length_take_le 5 _, ?_, ?_⟩
  · exact (pairwise_sortDescend _).sublist (List.take_sublist 5 _)
  · intro p hp
    have hmem : p ∈ sortDescend (counterList (keywordCandidates tokens)) :=
      (List.take_sublist 5 _).subset hp
    exact counterList_mem _ p ((mem_sortDescend p _).mp hmem)

/-! ## Helper lemmas: sortDescend is a stable descending reordering -/

theorem perm_insertDescend (p : α × Nat) :
    ∀ l : List (α × Nat), (insertDescend p l).Perm (p :: l) := by
  intro l
  induction l with
  | nil => simp [insertDescend]
  | cons q t ih =>
    simp only [insertDescend]
    by_cases hpq : p.2 < q.2
    · rw [if_pos hpq]
      exact (ih.cons q).trans (List.Perm.swap p q t)
    · rw [if_neg hpq]

theorem perm_sortDescend :
    ∀ l : List (α × Nat), (sortDescend l).Perm l := by
  intro l
  induction l with
  | nil => simp [sortDescend]
  | cons p t ih => exact (perm_insertDescend p (sortDescend t)).trans (ih.cons p)

theorem filter_insertDescend (p : α × Nat) (n : Nat) :
    ∀ l : List (α × Nat),
      (insertDescend p l).filter (fun q => q.2 = n) =
      if p.2 = n then p :: l.filter (fun q => q.2 = n)
      else l.filter (fun q => q.2 = n) := by
  intro l
  induction l with
  | nil => by_cases hp : p.2 = n <;> simp [insertDescend, hp]
  | cons q t ih =>
    simp only [insertDescend]
    by_cases hpq : p.2 < q.2
    · rw [if_pos hpq]
      by_cases hp : p.2 = n
      · have hq : ¬ q.2 = n := by omega
        simp [List.filter_cons, hq, ih, hp]
      · by_cases hq : q.2 = n <;> simp [List.filter_cons, hq, ih, hp]
    · rw [if_neg hpq]
      by_cases hp : p.2 = n <;> simp [List.filter_cons, hp]

theorem filter_sortDescend (n : Nat) :
    ∀ l : List (α × Nat),
      (sortDescend l).filter (fun q => q.2 = n) =
        l.filter (fun q => q.2 = n) := by
  intro l
  induction l with
  | nil => simp [sortDescend]
  | cons p t ih =>
    simp only [sortDescend]
    rw [filter_insertDescend]
    by_cases hp : p.2 = n <;> simp [List.filter_cons, hp, ih]

theorem counterList_keys [DecidableEq α] (l : List α) :
    (counterList l).map Prod.fst = dedupFirst l := by
  unfold counterList
  rw [List.map_map]
  exact List.map_id'' (fun w => rfl) _

/-- Every counter entry whose word does not appear in the top-5 output has
a count at most every output entry's count. -/
theorem topKeywords_maximal (tokens : List String) :
    ∀ p ∈ topKeywords tokens,
      ∀ q ∈ counterList (keywordCandidates tokens),
        q.1 ∉ (topKeywords tokens).map Prod.fst → q.2 ≤ p.2 := by
  intro p hp q hq hqnot
  set sorted := sortDescend (counterList (keywordCandidates tokens)) with hsorted
  have hout : topKeywords tokens = sorted.take 5 := rfl
  have hqs : q ∈ sorted := (perm_sortDescend _).mem_iff.mpr hq
  have hpw : sorted.Pairwise (fun a b => b.2 ≤ a.2) := pairwise_sortDescend _
  have hsplit : sorted.take 5 ++ sorted.drop 5 = sorted :=
    List.take_append_drop 5 sorted
  rw [← hsplit] at hqs hpw
  rcases List.mem_append.mp hqs with hqt | hqd
  · exact absurd (List.mem_map_of_mem Prod.fst (hout ▸ hqt)) hqnot
  · exact (List.pairwise_append.mp hpw).2.2 p (hout ▸ hp) q hqd

/-! ## Helper lemma: the max-by-value selection in spec form -/

theorem selectMax_spec (scores : List (String × Nat)) (h : scores ≠ []) :
    (if maxSnd scores > 0 then URLCat.pickMax scores else "other") =
    (if 0 < maxSnd scores then
       match scores.find? (fun p => p.2 == maxSnd scores) with
       | some p => p.1
       | none => "other"
     else "other") := by
  cases scores with
  | nil => cases h rfl
  | cons p0 rest =>
    by_cases hm : 0 < maxSnd (p0 :: rest)
    · rw [if_pos hm, if_pos hm]
      rw [show maxSnd (p0 :: rest) = max p0.2 (maxSnd rest) from rfl,
          pyMaxSnd_find rest p0]
      rfl
    · rw [if_neg hm, if_neg hm]

/-! ## Claim theorems -/

/-- C4 counterexample: URLCat's scoper accepts a URL whose scheme is ftp,
refuting "accepts iff the scheme is http or https"; the GSC scoper rejects
the same URL. -/
theorem c4_counterexample :
    URLCat.is_valid_url "ftp://a.com/x" "a.com" = true ∧
    (pyUrlparse "ftp://a.com/x" "").map PyParseResult.scheme = .ok "ftp" ∧
    GSC.is_valid_url "ftp://a.com/x" "a.com" = false := by
  decide

/-- C4 (amended): the GSC scoper accepts a URL iff it parses with scheme
http or https and its host is the target domain, a dot-suffixed subdomain
of it, or empty; the URLCat scoper omits the scheme test and accepts iff
the URL parses and the host condition holds.  Unparsable URLs are rejected
by returning false in both. -/
theorem c4_scoper_amended :
    ∀ (u d : String),
      (GSC.is_valid_url u d = true ↔
        ∃ p, pyUrlparse u "" = .ok p ∧
          (p.scheme = "http" ∨ p.scheme = "https") ∧
          (p.netloc = d ∨ p.netloc = "" ∨ pyEndswith p.netloc ("." ++ d) = true)) ∧
      (URLCat.is_valid_url u d = true ↔
        ∃ p, pyUrlparse u "" = .ok p ∧
          (p.netloc = d ∨ p.netloc = "" ∨ pyEndswith p.netloc ("." ++ d) = true)) := by
  intro u d
  constructor
  · unfold GSC.is_valid_url
    cases hp : pyUrlparse u "" with
    | error e => simp
    | ok p =>
      simp only [Except.ok.injEq, Bool.and_eq_true, Bool.or_eq_true, beq_iff_eq]
      constructor
      · rintro ⟨hs, hd⟩
        exact ⟨p, rfl, hs, by tauto⟩
      · rintro ⟨q, hq, hs, hd⟩
        cases hq
        exact ⟨hs, by tauto⟩
  · unfold URLCat.is_valid_url
    cases hp : pyUrlparse u "" with
    | error e => simp
    | ok p =>
      simp only [Except.ok.injEq, Bool.or_eq_true, beq_iff_eq]
      constructor
      · intro hd
        exact ⟨p, rfl, by tauto⟩
      · rintro ⟨q, hq, hd⟩
        cases hq
        tauto

/-- C3 counterexample: the hierarchy of "https://a.com/x/y/z.html" has
depth 3 and pathSegments ["x","y","z.html"], not depth 2 with ["x","y"]
as the claim states. -/
theorem c3_counterexample :
    (URLCat.analyze_url_hierarchy "https://a.com/x/y/z.html").map
        URLCat.Hierarchy.depth = .ok 3 ∧
    ¬((URLCat.analyze_url_hierarchy "https://a.com/x/y/z.html").map
        URLCat.Hierarchy.depth = .ok 2) ∧
    ¬((URLCat.analyze_url_hierarchy "https://a.com/x/y/z.html").map
        URLCat.Hierarchy.path_parts = .ok ["x", "y"]) ∧
    ¬((GSC.hierarchy_info "https://a.com/x/y/z.html").map GSC.HierInfo.depth =
        .ok 2) := by
  decide

/-- C3 (amended): the hierarchy analyzer applied to
"https://a.com/x/y/z.html" returns depth 3 with pathSegments
["x","y","z.html"] and fileExtension "html" (in both variants), the
query-only URL "https://a.com/?q=1" yields depth 0, and in general
pathSegments is the parsed path split on '/' with empty segments removed
while depth is the segment count. -/
theorem c3_hierarchy_amended :
    URLCat.analyze_url_hierarchy "https://a.com/x/y/z.html" =
      .ok { depth := 3, path_parts := ["x", "y", "z.html"], has_query := false,
            file_extension := some "html" } ∧
    URLCat.analyze_url_hierarchy "https://a.com/?q=1" =
      .ok { depth := 0, path_parts := [], has_query := true,
            file_extension := none } ∧
    GSC.hierarchy_info "https://a.com/x/y/z.html" =
      .ok { depth := 3, file_ext := "html" } ∧
    GSC.hierarchy_info "https://a.com/?q=1" =
      .ok { depth := 0, file_ext := "html" } ∧
    ∀ (url : String) (p : PyParseResult) (h : URLCat.Hierarchy),
      pyUrlparse url "" = .ok p → URLCat.analyze_url_hierarchy url = .ok h →
      h.path_parts = (pySplitChar '/' p.path).filter (fun s => s ≠ "") ∧
      h.depth = h.path_parts.length := by
  refine ⟨by decide, by decide, by decide, by decide, ?_⟩
  intro url p h hp hh
  unfold URLCat.analyze_url_hierarchy at hh
  rw [hp] at hh
  simp only [Except.ok.injEq] at hh
  subst hh
  exact ⟨rfl, rfl⟩

/-- C3 witness: the general split rule instantiated on a concrete URL. -/
theorem c3_hierarchy_amended_witness :
    URLCat.analyze_url_hierarchy "https://a.com/a/b" =
      .ok { depth := 2, path_parts := ["a", "b"], has_query := false,
            file_extension := none } ∧
    (["a", "b"] = (pySplitChar '/' "/a/b").filter (fun s => s ≠ "") ∧
     2 = (["a", "b"] : List String).length) := by
  refine ⟨by decide, ?_⟩
  have := c3_hierarchy_amended.2.2.2.2 "https://a.com/a/b"
    { scheme := "https", netloc := "a.com", path := "/a/b", params := "",
      query := "", fragment := "" }
    { depth := 2, path_parts := ["a", "b"], has_query := false,
      file_extension := none }
    (by decide) (by decide)
  simpa using this

/-- C9 counterexample: on the spec's own example tokens the top-1 keyword
is ("bird",1), not ("dog",3): "dog" has length 3 and is excluded by the
strictly-greater-than-3 filter exactly like "cat". -/
theorem c9_counterexample :
    topKeywords ["cat", "cat", "dog", "dog", "dog", "bird"] = [("bird", 1)] ∧
    (topKeywords ["cat", "cat", "dog", "dog", "dog", "bird"]).head? ≠
      some ("dog", 3) := by
  decide

/-- C9 (amended): the keyword extractor keeps only alphabetic tokens of
length strictly greater than 3, lower-cases them, counts frequencies, and
returns the 5 most frequent (word, frequency) pairs in descending
frequency with ties broken by first-encountered order: the output is the
5-element prefix of a descending reordering of the first-encounter-ordered
frequency counter that is stable (for every count value, entries with that
count keep the counter's order), every output frequency is the true count,
and every word left out has a count at most every returned count.  On the
spec's example tokens "cat cat dog dog dog bird" every length-3 word is
excluded — "dog" exactly like "cat" — and the result is [("bird",1)]. -/
theorem c9_keywords_amended :
    topKeywords ["cat", "cat", "dog", "dog", "dog", "bird"] = [("bird", 1)] ∧
    keywordCandidates ["cat", "cat", "dog", "dog", "dog", "bird"] = ["bird"] ∧
    ∀ tokens : List String,
      keywordCandidates tokens =
        (tokens.filter (fun w => decide (3 < w.length) &&
          w.data.all Char.isAlpha)).map pyLower ∧
      (topKeywords tokens).length ≤ 5 ∧
      (topKeywords tokens).Pairwise (fun a b => b.2 ≤ a.2) ∧
      (∀ p ∈ topKeywords tokens,
        p.1 ∈ keywordCandidates tokens ∧
        p.2 = (keywordCandidates tokens).count p.1) ∧
      (counterList (keywordCandidates tokens)).map Prod.fst =
        dedupFirst (keywordCandidates tokens) ∧
      (∃ sorted : List (String × Nat),
        topKeywords tokens = sorted.take 5 ∧
        sorted.Perm (counterList (keywordCandidates tokens)) ∧
        sorted.Pairwise (fun a b => b.2 ≤ a.2) ∧
        ∀ n : Nat, sorted.filter (fun q => q.2 = n) =
          (counterList (keywordCandidates tokens)).filter (fun q => q.2 = n)) ∧
      ∀ p ∈ topKeywords tokens,
        ∀ q ∈ counterList (keywordCandidates tokens),
          q.1 ∉ (topKeywords tokens).map Prod.fst → q.2 ≤ p.2 := by
  refine ⟨by decide, by decide, ?_⟩
  intro tokens
  obtain ⟨h1, h2, h3⟩ := topKeywords_facts tokens
  refine ⟨rfl, h1, h2, h3, counterList_keys _, ?_, topKeywords_maximal tokens⟩
  exact ⟨sortDescend (counterList (keywordCandidates tokens)), rfl,
         perm_sortDescend _, pairwise_sortDescend _,
         fun n => filter_sortDescend n _⟩

/-- C9 witness: top-5 selection, true counts and maximality at a concrete
token list with six distinct qualifying words, one of which is left out of
the top 5 with a count no larger than any returned count. -/
theorem c9_keywords_amended_witness :
    topKeywords ["aaaa", "aaaa", "bbbb", "cccc", "dddd", "eeee", "ffff"] =
      [("aaaa", 2), ("bbbb", 1), ("cccc", 1), ("dddd", 1), ("eeee", 1)] ∧
    ("aaaa" ∈ keywordCandidates ["aaaa", "aaaa", "bbbb", "cccc", "dddd", "eeee", "ffff"] ∧
     2 = (keywordCandidates ["aaaa", "aaaa", "bbbb", "cccc", "dddd", "eeee", "ffff"]).count "aaaa") ∧
    ("ffff", 1).2 ≤ ("aaaa", 2).2 := by
  refine ⟨by decide, ?_, ?_⟩
  · exact ((c9_keywords_amended.2.2
      ["aaaa", "aaaa", "bbbb", "cccc", "dddd", "eeee", "ffff"]).2.2.2.1
      ("aaaa", 2) (by decide))
  · exact ((c9_keywords_amended.2.2
      ["aaaa", "aaaa", "bbbb", "cccc", "dddd", "eeee", "ffff"]).2.2.2.2.2.2
      ("aaaa", 2) (by decide) ("ffff", 1) (by decide) (by decide))

/-- C2 counterexample: the GSC classifier does not use the spec 4.5
keyword sets: a page titled "store" is "product" under the spec table
(and under URLCat's classifier) but "other" under the GSC classifier,
whose table differs from the spec's. -/
theorem c2_counterexample :
    URLCat.classify_content c2_page = "product" ∧
    GSC.classify_content c2_page = "other" ∧
    GSC.category_keywords ≠ spec_categories := by
  decide

/-- C2 (amended): URLCat's classifier uses exactly the spec 4.5 table and
both classifiers implement the spec's selection rule over their own
ordered tables — score each category by counting its keywords occurring as
case-insensitive substrings of the lower-cased concatenation of title,
description, joined headings and stored text, return the earliest category
in declaration order attaining the maximum score when it is positive, and
"other" otherwise; the GSC variant uses a reduced keyword table. -/
theorem c2_classifier_amended :
    URLCat.categories = spec_categories ∧
    (∀ page : Page, URLCat.classify_content page =
       specSelect spec_categories (URLCat.classifyText page)) ∧
    (∀ page : Page, GSC.classify_content page =
       specSelect GSC.category_keywords (GSC.classifyText page)) := by
  refine ⟨rfl, ?_, ?_⟩
  · intro page
    unfold URLCat.classify_content specSelect
    rw [show spec_categories = URLCat.categories from rfl]
    exact selectMax_spec _ (by unfold URLCat.scoreTable URLCat.categories; simp)
  · intro page
    unfold GSC.classify_content specSelect
    exact selectMax_spec _ (by unfold URLCat.scoreTable GSC.category_keywords; simp)

/-- C5 counterexample: on a page whose collapsed text has 1249 characters
(250 words), the GSC extractor reports wordCount 200 — the word count of
the truncated 1000-character prefix — while the untruncated text has 250
words (which is what the URLCat extractor reports). -/
theorem c5_counterexample :
    (GSC.extract_success "d" "u" c5_parts).map Page.word_count = .ok 200 ∧
    (URLCat.extract_success "d" "u" c5_parts).map Page.word_count = .ok 250 ∧
    (pySplit c5_parts.rawText).length = 250 := by
  decide

/-- C5 (amended): both extractors store the whitespace-collapsed text
truncated to 1000 characters; URLCat computes wordCount from the
untruncated collapsed text, but the GSC variant computes it from the
truncated stored prefix. -/
theorem c5_wordcount_amended :
    (∀ (domain url : String) (parts : PageParts) (page : Page),
       URLCat.extract_success domain url parts = .ok page →
       page.text_content = pyTake 1000 (pyCollapse parts.rawText) ∧
       page.word_count = (pySplit parts.rawText).length) ∧
    (∀ (domain url : String) (parts : PageParts) (page : Page),
       GSC.extract_success domain url parts = .ok page →
       page.text_content = pyTake 1000 (pyCollapse parts.rawText) ∧
       page.word_count = (pySplit (pyTake 1000 (pyCollapse parts.rawText))).length) := by
  constructor
  · intro domain url parts page h
    unfold URLCat.extract_success at h
    cases hc : URLCat.collectLinks domain url parts.hrefs with
    | error e => rw [hc] at h; cases h
    | ok links =>
      rw [hc] at h
      simp only [Except.ok.injEq] at h
      subst h
      refine ⟨rfl, ?_⟩
      show (pySplit (pyCollapse parts.rawText)).length = _
      rw [pySplit_collapse]
  · intro domain url parts page h
    unfold GSC.extract_success at h
    cases hc : GSC.collectLinks domain url parts.hrefs with
    | error e => rw [hc] at h; cases h
    | ok links =>
      rw [hc] at h
      simp only [Except.ok.injEq] at h
      subst h
      exact ⟨rfl, rfl⟩

/-- C5 witness: the URLCat extraction contract at a concrete page. -/
theorem c5_wordcount_amended_witness :
    ({ url := "http://a.com/", title := "No Title", description := "",
       headings := [], text_content := "a bb", word_count := 2, links := [],
       status := "success" } : Page).text_content =
        pyTake 1000 (pyCollapse " a  bb ") ∧
    ({ url := "http://a.com/", title := "No Title", description := "",
       headings := [], text_content := "a bb", word_count := 2, links := [],
       status := "success" } : Page).word_count = (pySplit " a  bb ").length :=
  c5_wordcount_amended.1 "a.com" "http://a.com/"
    { title := none, meta_description := none, headings := [],
      rawText := " a  bb ", hrefs := [] }
    { url := "http://a.com/", title := "No Title", description := "",
      headings := [], text_content := "a bb", word_count := 2, links := [],
      status := "success" }
    (by decide)

/-- C6 counterexample: for an anchor href "/p#sec" on "https://a.com/",
the URLCat extractor keeps the fragment ("https://a.com/p#sec"), refuting
"with any fragment identifier stripped"; the GSC extractor strips it. -/
theorem c6_counterexample :
    (URLCat.extract_success "a.com" "https://a.com/"
       { title := none, meta_description := none, headings := [],
         rawText := "", hrefs := ["/p#sec"] }).map Page.links =
      .ok ["https://a.com/p#sec"] ∧
    (GSC.extract_success "a.com" "https://a.com/"
       { title := none, meta_description := none, headings := [],
         rawText := "", hrefs := ["/p#sec"] }).map Page.links =
      .ok ["https://a.com/p"] := by
  decide

/-- C6 (amended): both extractors resolve each href against the page URL,
keep only scoper-accepted targets and deduplicate preserving the first
occurrence; the GSC variant additionally strips fragment identifiers
before filtering, while URLCat keeps fragments. -/
theorem c6_links_amended :
    (∀ (domain url : String) (parts : PageParts) (js : List String) (page : Page),
       exMapM (fun x => pyUrljoin url x) parts.hrefs = .ok js →
       URLCat.extract_success domain url parts = .ok page →
       page.links = dedupFirst (js.filter (fun x => URLCat.is_valid_url x domain))) ∧
    (∀ (domain url : String) (parts : PageParts) (js : List String) (page : Page),
       exMapM (fun a =>
         match pyUrljoin url a with
         | .error e => .error e
         | .ok href => .ok ((pySplitChar '#' href).headD "")) parts.hrefs = .ok js →
       GSC.extract_success domain url parts = .ok page →
       page.links = dedupFirst (js.filter (fun x => GSC.is_valid_url x domain))) := by
  constructor
  · intro domain url parts js page hjs h
    unfold URLCat.extract_success at h
    have hcol := collectLinks_spec domain url parts.hrefs js hjs
    rw [hcol] at h
    simp only [Except.ok.injEq] at h
    subst h
    rfl
  · intro domain url parts js page hjs h
    unfold GSC.extract_success at h
    have hcol : GSC.collectLinks domain url parts.hrefs =
        .ok (dedupFirst (js.filter (fun x => GSC.is_valid_url x domain))) := by
      unfold GSC.collectLinks
      rw [hjs]
    rw [hcol] at h
    simp only [Except.ok.injEq] at h
    subst h
    rfl

/-- C6 witness: link collection at a concrete page with a duplicate href
and an out-of-domain href. -/
theorem c6_links_amended_witness :
    ({ url := "https://a.com/", title := "No Title", description := "",
       headings := [], text_content := "", word_count := 0,
       links := ["https://a.com/p"], status := "success" } : Page).links =
      dedupFirst ((["https://a.com/p", "https://a.com/p", "ftp://b.com/q"]).filter
        (fun x => URLCat.is_valid_url x "a.com")) :=
  c6_links_amended.1 "a.com" "https://a.com/"
    { title := none, meta_description := none, headings := [],
      rawText := "", hrefs := ["/p", "/p", "ftp://b.com/q"] }
    ["https://a.com/p", "https://a.com/p", "ftp://b.com/q"]
    { url := "https://a.com/", title := "No Title", description := "",
      headings := [], text_content := "", word_count := 0,
      links := ["https://a.com/p"], status := "success" }
    (by decide) (by decide)

/-- C7 (confirmed): in both crawl loops the number of visited URLs never
exceeds the configured page budget, and hence the result set has at most
max_pages records. -/
theorem c7_budget_respected :
    (∀ (o : String → Except String PageParts) (t : String → List String)
       (base : String) (m : Nat) (res : List URLCat.Record) (vis : List String),
       URLCat.crawl_state o t base m = .ok (res, vis) →
       vis.length ≤ m ∧ res.length ≤ m) ∧
    (∀ (o : String → Except String PageParts) (t : String → List String)
       (base : String) (m : Nat) (res : List GSC.Record) (vis : List String),
       GSC.crawl_state o t base m = .ok (res, vis) →
       vis.length ≤ m ∧ res.length ≤ m) := by
  constructor
  · intro o t base m res vis h
    unfold URLCat.crawl_state at h
    cases hp : pyUrlparse base "" with
    | error e => rw [hp] at h; cases h
    | ok p =>
      rw [hp] at h
      have := URLCat.crawl_loop_budget o t p.netloc m [base] [] [] res vis h
        (by simp)
      simp only [List.length_nil] at this
      omega
  · intro o t base m res vis h
    unfold GSC.crawl_state at h
    cases hp : pyUrlparse base "" with
    | error e => rw [hp] at h; cases h
    | ok p =>
      rw [hp] at h
      have := GSC.crawl_loop_budget_g o t p.netloc m [pyRstripSlash base] [] []
        res vis h (by simp)
      simp only [List.length_nil] at this
      omega

/-- C7 witness: the budget bound at the one-page crawl with budget 1. -/
theorem c7_budget_respected_witness :
    ((["http://x"] : List String).length ≤ 1 ∧
     ([tinyRecordU] : List URLCat.Record).length ≤ 1) ∧
    ((["http://x"] : List String).length ≤ 1 ∧
     ([tinyRecordG] : List GSC.Record).length ≤ 1) :=
  ⟨c7_budget_respected.1 tinyOracle pySplit "http://x" 1 [tinyRecordU]
     ["http://x"] tiny_eval_urlcat,
   c7_budget_respected.2 tinyOracle pySplit "http://x" 1 [tinyRecordG]
     ["http://x"] tiny_eval_gsc⟩

/-- C8 (confirmed): in both crawl loops no URL is fetched twice: the url
field is a unique key across the result set, and the visited list itself
holds no duplicates. -/
theorem c8_no_duplicate_fetch :
    (∀ (o : String → Except String PageParts) (t : String → List String)
       (base : String) (m : Nat) (res : List URLCat.Record) (vis : List String),
       URLCat.crawl_state o t base m = .ok (res, vis) →
       (res.map (fun r => r.page.url)).Nodup ∧ vis.Nodup) ∧
    (∀ (o : String → Except String PageParts) (t : String → List String)
       (base : String) (m : Nat) (res : List GSC.Record) (vis : List String),
       GSC.crawl_state o t base m = .ok (res, vis) →
       (res.map (fun r => r.page.url)).Nodup ∧ vis.Nodup) := by
  constructor
  · intro o t base m res vis h
    unfold URLCat.crawl_state at h
    cases hp : pyUrlparse base "" with
    | error e => rw [hp] at h; cases h
    | ok p =>
      rw [hp] at h
      exact URLCat.crawl_loop_nodup o t p.netloc m [base] [] [] res vis h
        (by simp) (by simp) (by simp)
  · intro o t base m res vis h
    unfold GSC.crawl_state at h
    cases hp : pyUrlparse base "" with
    | error e => rw [hp] at h; cases h
    | ok p =>
      rw [hp] at h
      exact GSC.crawl_loop_nodup_g o t p.netloc m [pyRstripSlash base] [] []
        res vis h (by simp) (by simp) (by simp)

/-- C8 witness: uniqueness at the one-page crawl. -/
theorem c8_no_duplicate_fetch_witness :
    ((([tinyRecordU] : List URLCat.Record).map (fun r => r.page.url)).Nodup ∧
     (["http://x"] : List String).Nodup) ∧
    ((([tinyRecordG] : List GSC.Record).map (fun r => r.page.url)).Nodup ∧
     (["http://x"] : List String).Nodup) :=
  ⟨c8_no_duplicate_fetch.1 tinyOracle pySplit "http://x" 1 [tinyRecordU]
     ["http://x"] tiny_eval_urlcat,
   c8_no_duplicate_fetch.2 tinyOracle pySplit "http://x" 1 [tinyRecordG]
     ["http://x"] tiny_eval_gsc⟩

/-- C10 (confirmed): every record in the final result set of either crawl
has status "success" with category, hierarchy and keywords populated; a
fetch or extraction failure leaves no record in the result set. -/
theorem c10_success_only_records :
    (∀ (o : String → Except String PageParts) (t : String → List String)
       (base : String) (m : Nat) (res : List URLCat.Record) (vis : List String),
       URLCat.crawl_state o t base m = .ok (res, vis) →
       ∀ r ∈ res, r.page.status = "success" ∧ r.category.isSome ∧
         r.hierarchy.isSome ∧ r.keywords.isSome) ∧
    (∀ (o : String → Except String PageParts) (t : String → List String)
       (base : String) (m : Nat) (res : List GSC.Record) (vis : List String),
       GSC.crawl_state o t base m = .ok (res, vis) →
       ∀ r ∈ res, r.page.status = "success" ∧ r.category.isSome ∧
         r.hierarchy.isSome ∧ r.keywords.isSome) := by
  constructor
  · intro o t base m res vis h
    unfold URLCat.crawl_state at h
    cases hp : pyUrlparse base "" with
    | error e => rw [hp] at h; cases h
    | ok p =>
      rw [hp] at h
      exact URLCat.crawl_loop_success o t p.netloc m [base] [] [] res vis h
        (by simp)
  · intro o t base m res vis h
    unfold GSC.crawl_state at h
    cases hp : pyUrlparse base "" with
    | error e => rw [hp] at h; cases h
    | ok p =>
      rw [hp] at h
      exact GSC.crawl_loop_success_g o t p.netloc m [pyRstripSlash base] [] []
        res vis h (by simp)

/-- C10 witness: the record of the one-page crawl is a populated success
record. -/
theorem c10_success_only_records_witness :
    (tinyRecordU.page.status = "success" ∧ tinyRecordU.category.isSome ∧
     tinyRecordU.hierarchy.isSome ∧ tinyRecordU.keywords.isSome) ∧
    (tinyRecordG.page.status = "success" ∧ tinyRecordG.category.isSome ∧
     tinyRecordG.hierarchy.isSome ∧ tinyRecordG.keywords.isSome) :=
  ⟨c10_success_only_records.1 tinyOracle pySplit "http://x" 1 [tinyRecordU]
     ["http://x"] tiny_eval_urlcat tinyRecordU (List.mem_singleton_self _),
   c10_success_only_records.2 tinyOracle pySplit "http://x" 1 [tinyRecordG]
     ["http://x"] tiny_eval_gsc tinyRecordG (List.mem_singleton_self _)⟩

/-! ## The one-success-one-error crawl of claim C1 -/

theorem c1_eval_state :
    URLCat.crawl_state c1_oracle pySplit "https://a.com/" 5 =
      .ok ([c1_record], ["https://a.com/", "https://a.com/err"]) := by
  have h0 : pyUrlparse "https://a.com/" "" =
      .ok { scheme := "https", netloc := "a.com", path := "/", params := "",
            query := "", fragment := "" } := by decide
  rw [URLCat.crawl_state, h0]
  dsimp only
  rw [URLCat.crawl_loop_succ c1_oracle pySplit "a.com" 5 "https://a.com/" [] [] []
        c1_record (by decide) (by decide) (by decide) (by decide)]
  simp only [List.nil_append]
  rw [show URLCat.pushLinks ["https://a.com/"] []
        (URLCat.fetch_page "a.com" c1_oracle "https://a.com/").links =
      ["https://a.com/err"] from by decide]
  rw [URLCat.crawl_loop_err c1_oracle pySplit "a.com" 5 "https://a.com/err" []
        ["https://a.com/"] [c1_record] (by decide) (by decide) (by decide)]
  exact URLCat.crawl_loop_nil c1_oracle pySplit "a.com" 5
    ["https://a.com/", "https://a.com/err"] [c1_record]

/-- C1 counterexample: in the one-success-one-error crawl, two URLs are
visited but the raw result set holds a single record — the error record is
not retained, so the raw result count is 1, not 2 as the claim states. -/
theorem c1_counterexample :
    (URLCat.crawl_state c1_oracle pySplit "https://a.com/" 5).map
      (fun s => (s.1.length, s.2.length)) = .ok (1, 2) := by
  rw [c1_eval_state]
  rfl

/-- C1 (amended): error records never reach the result set at all — the
crawl appends only status=success records — so the taxonomy computed from
the result set reflects exactly its success records; in the
one-success-one-error crawl the result set has the single success record
and the taxonomy counts only it. -/
theorem c1_error_records_excluded :
    URLCat.crawl_website c1_oracle pySplit "https://a.com/" 5 = .ok [c1_record] ∧
    c1_record.page.status = "success" ∧
    URLCat.create_taxonomy_data [c1_record] =
      some { categories := [("other", 1)], hierarchy_levels := [(0, 1)],
             file_types := [("html", 1)],
             topics := [("welcome", 1), ("home", 1)] } := by
  refine ⟨?_, by decide, by decide⟩
  unfold URLCat.crawl_website
  rw [c1_eval_state]
  rfl
